import Mathlib

/-!
Verification of the conversation/workflow state machine of the slack-jira-kba-bot
repository.  The TypeScript sources are shallowly embedded: pure functions become
Lean functions, the per-thread context `Map` becomes an association list, each
external collaborator call (Jira fetch, question/content generation, image render,
Confluence publish) becomes an oracle parameter telling how that call would have
returned or thrown, and each observable side effect (Slack message, render request,
pacing delay, publish call) becomes an entry in an emitted event list.
-/

/-! ## Data model (src/types/index.ts) -/

structure JiraComment where
  author : String
  body : String
  created : String
deriving DecidableEq

structure JiraTicket where
  key : String
  summary : String
  description : String
  issueType : String
  priority : String
  status : String
  assignee : Option String
  reporter : Option String
  created : String
  updated : String
  comments : List JiraComment
  resolution : Option String
  customFields : List (String × String)
deriving DecidableEq

/-- `osType` of a KBA step: the TypeScript union `'mac' | 'windows' | 'both'`. -/
inductive OsType where
  | mac
  | windows
  | both
deriving DecidableEq

/-- `osType` of a generated image: the TypeScript union `'mac' | 'windows'`. -/
inductive ImageOs where
  | mac
  | windows
deriving DecidableEq

structure KBAStep where
  stepNumber : Nat
  description : String
  imagePrompt : Option String
  osType : Option OsType
  codeSnippet : Option String
deriving DecidableEq

structure KBAContent where
  title : String
  problem : String
  solution : String
  steps : List KBAStep
  additionalNotes : Option String
  tags : List String
deriving DecidableEq

structure GeneratedImage where
  stepNumber : Nat
  url : String
  osType : ImageOs
  prompt : String
deriving DecidableEq

structure KBADraft where
  jiraTicket : JiraTicket
  content : KBAContent
  images : List GeneratedImage
  confluencePageId : Option String
deriving DecidableEq

/-- The `stage` union of `ConversationContext`. -/
inductive Stage where
  | initial
  | analyzing
  | asking_questions
  | generating
  | review
  | complete
deriving DecidableEq

/-- `ConversationContext`; `userAnswers` is a JavaScript object whose keys are always
the fresh strings `answer_1`, `answer_2`, …, so insertion order makes it a list of
key/value pairs. -/
structure ConversationContext where
  threadTs : String
  channel : String
  userId : String
  jiraTicket : Option JiraTicket
  kbaDraft : Option KBADraft
  stage : Stage
  questionsAsked : List String
  userAnswers : List (String × String)
deriving DecidableEq

/-! ## The per-thread context map (`private contexts: Map<string, ConversationContext>`)

Embedded as an association list; `ctxSet` replaces in place (as `Map.set` does) and
`ctxDel` removes the entry. -/

abbrev Contexts := List (String × ConversationContext)

def ctxGet : Contexts → String → Option ConversationContext
  | [], _ => none
  | p :: m, k => if p.1 = k then some p.2 else ctxGet m k

def ctxSet : Contexts → String → ConversationContext → Contexts
  | [], k, c => [(k, c)]
  | p :: m, k, c => if p.1 = k then (k, c) :: m else p :: ctxSet m k c

def ctxDel : Contexts → String → Contexts
  | [], _ => []
  | p :: m, k => if p.1 = k then ctxDel m k else p :: ctxDel m k

/-! ## JiraService.extractTicketKey (src/services/jira.service.ts, lines 25-40)

The method tries, in order, the regular expressions `([A-Z]+-\d+)` and
`browse\/([A-Z]+-\d+)` and returns the first captured group, or `null`.
JavaScript regex matching is leftmost-first with greedy quantifiers. -/

def isUpperAZ (c : Char) : Bool := decide ('A' ≤ c) && decide (c ≤ 'Z')

def isDigit09 (c : Char) : Bool := decide ('0' ≤ c) && decide (c ≤ '9')

/-- One attempt to match `([A-Z]+-\d+)` anchored at the head of the character list:
a maximal nonempty run of uppercase letters (`takeWhile`, with `dropWhile` giving what
follows the run), a literal dash, then a maximal nonempty run of digits.
(Backtracking the greedy `[A-Z]+` cannot help: every shorter prefix of the letter run
is followed by a letter, not a dash.) -/
def matchKeyAt (cs : List Char) : Option (List Char) :=
  if cs.takeWhile isUpperAZ = [] then none
  else
    match cs.dropWhile isUpperAZ with
    | [] => none
    | c :: rest =>
      if c = '-' then
        if rest.takeWhile isDigit09 = [] then none
        else some (cs.takeWhile isUpperAZ ++ '-' :: rest.takeWhile isDigit09)
      else none

/-- Scan for the leftmost position where `([A-Z]+-\d+)` matches. -/
def findKeyPattern : List Char → Option (List Char)
  | [] => none
  | c :: cs =>
    match matchKeyAt (c :: cs) with
    | some m => some m
    | none => findKeyPattern cs

/-- Scan for the leftmost position where `browse\/([A-Z]+-\d+)` matches, returning the
captured group. -/
def findBrowsePattern : List Char → Option (List Char)
  | [] => none
  | c :: cs =>
    match c, cs with
    | 'b', 'r' :: 'o' :: 'w' :: 's' :: 'e' :: '/' :: rest =>
      match matchKeyAt rest with
      | some m => some m
      | none => findBrowsePattern cs
    | _, _ => findBrowsePattern cs

/-- `JiraService.extractTicketKey`: try the simple-key pattern, then the URL pattern,
returning the first match or `null` (`none`).  The function is total, modelling that
the source never throws on arbitrary input. -/
def extractTicketKey (text : String) : Option String :=
  match findKeyPattern text.data with
  | some m => some (String.mk m)
  | none =>
    match findBrowsePattern text.data with
    | some m => some (String.mk m)
    | none => none

/-- The shape of a ticket key as the specification describes it: a nonempty run of
uppercase letters, a dash, and a nonempty run of digits.  This is the spec-side
predicate the parser is compared against. -/
def TicketShape (m : List Char) : Prop :=
  ∃ L D, m = L ++ '-' :: D ∧ L ≠ [] ∧ (∀ c ∈ L, isUpperAZ c = true) ∧
    D ≠ [] ∧ (∀ c ∈ D, isDigit09 c = true)

/-- Some substring of `cs` has the ticket-key shape. -/
def OccursIn (cs : List Char) : Prop :=
  ∃ p m s, cs = p ++ m ++ s ∧ TicketShape m

/-! ## Observable effects

Every Slack message the workflow posts is identified by its call site together with
the data interpolated into the template; `Msg.render` reproduces the exact text the
source builds.  Other side effects (content-generation calls, image-render requests,
the rate-limit pacing delay, Confluence publish calls, preview file uploads) appear
as further `Event` constructors. -/

/-- A single-quote character, used by message texts. -/
def squote : String := String.singleton (Char.ofNat 39)

inductive Msg where
  | analyzingTicket
  | parseError
  | startError (message : String)
  | foundTicket (key summary status priority : String)
  | questionList (questions : List String)
  | allAnswered
  | answersRemaining (remaining : Nat)
  | generatingContent
  | generatingImages (count : Nat)
  | generationError (message : String)
  | preview (content : KBAContent) (imageCount : Nat)
  | publishing
  | published (pageUrl jiraKey : String)
  | publishError (message : String)
  | changesPrompt
  | cancelled
deriving DecidableEq

/-- The numbered question list `questions.map((q, i) => ...).join('\n')`. -/
def questionText (questions : List String) : String :=
  String.intercalate "\n"
    (questions.enum.map (fun iq => toString (iq.1 + 1) ++ ". " ++ iq.2))

/-- One step of the Slack preview text built by `showPreview`. -/
def previewStepText (step : KBAStep) : String :=
  toString step.stepNumber ++ ". " ++ step.description ++ "\n" ++
  (match step.codeSnippet with
   | some code => if code = "" then "" else "```\n" ++ code ++ "\n```\n"
   | none => "")

/-- The preview text built by `showPreview` from the draft. -/
def previewText (content : KBAContent) (imageCount : Nat) : String :=
  ":page_facing_up: *KBA Preview*\n\n" ++
  "*Title:* " ++ content.title ++ "\n\n" ++
  "*Problem:*\n" ++ content.problem ++ "\n\n" ++
  "*Solution:*\n" ++ content.solution ++ "\n\n" ++
  "*Steps:*\n" ++
  String.join (content.steps.map previewStepText) ++
  (match content.additionalNotes with
   | some notes => if notes = "" then "" else "\n*Additional Notes:*\n" ++ notes ++ "\n"
   | none => "") ++
  "\n*Tags:* " ++ String.intercalate ", " content.tags ++ "\n" ++
  "\n*Generated Images:* " ++ toString imageCount ++ " screenshot mockup(s)\n"

/-- The exact text posted for each message call site (`jiraHost` stands for the
`process.env.JIRA_HOST` referenced by the success message). -/
def Msg.render (jiraHost : String) : Msg → String
  | .analyzingTicket => ":mag: Analyzing Jira ticket..."
  | .parseError =>
      ":x: Could not extract Jira ticket key from the URL. Please provide a valid Jira ticket URL."
  | .startError message => ":x: Error: " ++ message
  | .foundTicket key summary status priority =>
      ":white_check_mark: Found ticket: *" ++ key ++ " - " ++ summary ++ "*\n\n" ++
      "Status: " ++ status ++ "\nPriority: " ++ priority ++ "\n\n" ++
      ":brain: Analyzing ticket to determine what additional information is needed..."
  | .questionList questions =>
      ":question: I need some additional information to create a comprehensive KBA:\n\n" ++
      questionText questions ++
      "\n\nPlease answer these questions (you can answer them in one message or separately)."
  | .allAnswered =>
      ":white_check_mark: Thank you! I have all the information I need.\n\n:robot_face: Generating KBA content..."
  | .answersRemaining remaining =>
      ":white_check_mark: Got it! " ++ toString remaining ++ " more question(s) remaining."
  | .generatingContent => ":pencil: Generating KBA content..."
  | .generatingImages count =>
      ":art: Generating " ++ toString count ++ " screenshot mockup(s)... This may take a minute."
  | .generationError message => ":x: Error generating KBA: " ++ message
  | .preview content imageCount => previewText content imageCount
  | .publishing => ":rocket: Publishing KBA to Confluence..."
  | .published pageUrl jiraKey =>
      ":white_check_mark: *KBA successfully published!*\n\nView it here: " ++ pageUrl ++
      "\n\nJira Ticket: " ++ jiraHost ++ "/browse/" ++ jiraKey
  | .publishError message => ":x: Error publishing to Confluence: " ++ message
  | .changesPrompt =>
      ":pencil: Please describe what changes you" ++ squote ++ "d like me to make to the KBA."
  | .cancelled => ":x: KBA generation cancelled."

inductive Event where
  | msg (channel threadTs : String) (body : Msg)
  | contentGen
  | imageReq (stepNumber : Nat) (os : ImageOs)
  | delay
  | previewUpload (stepNumber : Nat) (os : ImageOs)
  | reviewPrompt (channel threadTs contextKey : String)
  | publishCall
deriving DecidableEq

/-! ## OpenAIService (src/services/openai.service.ts) -/

/-- How one `images.generate` call would end: a thrown error, a response whose
`data[0].url` is missing, or a response carrying a url. -/
inductive RenderOutcome where
  | fail (message : String)
  | noUrl
  | url (u : String)
deriving DecidableEq

def osStyleText : ImageOs → String
  | .mac =>
      "macOS style interface with rounded corners, San Francisco font, light gray header with red/yellow/green traffic light buttons on the left, clean modern aesthetic"
  | .windows =>
      "Windows 11 style interface with rounded corners, Segoe UI font, white title bar with minimize/maximize/close buttons on the right, modern Fluent Design aesthetic"

/-- `OpenAIService.enhanceImagePrompt`. -/
def enhanceImagePrompt (basePrompt : String) (osType : ImageOs) : String :=
  basePrompt ++ "\n\nStyle: " ++ osStyleText osType ++
  ". Photorealistic computer interface mockup, high quality, clean and professional appearance. No text unless absolutely necessary for UI clarity."

/-- `step.osType === 'both' ? ['mac', 'windows'] : [step.osType]`. -/
def osList : OsType → List ImageOs
  | .both => [ImageOs.mac, ImageOs.windows]
  | .mac => [ImageOs.mac]
  | .windows => [ImageOs.windows]

/-- The inner `for (const os of osTypes)` loop of `generateImages` for one step:
issues one render request per platform; a thrown render error is caught at the
step level, so it aborts the remaining platforms of this step (third component
`true`) and the step-level pacing delay. -/
def renderLoop (render : Nat → ImageOs → RenderOutcome) (stepNumber : Nat)
    (prompt : String) : List ImageOs → List GeneratedImage × List Event × Bool
  | [] => ([], [], false)
  | os :: rest =>
    match render stepNumber os with
    | .fail _ => ([], [Event.imageReq stepNumber os], true)
    | .noUrl =>
      let r := renderLoop render stepNumber prompt rest
      (r.1, Event.imageReq stepNumber os :: r.2.1, r.2.2)
    | .url u =>
      let r := renderLoop render stepNumber prompt rest
      (GeneratedImage.mk stepNumber u os (enhanceImagePrompt prompt os) :: r.1,
       Event.imageReq stepNumber os :: r.2.1, r.2.2)

/-- One iteration of the outer `for (const step of content.steps)` loop: a step is
processed only when `step.imagePrompt && step.osType` is truthy (an empty prompt
string is falsy in JavaScript); the 1000 ms pacing delay comes after the whole inner
loop, inside the `try`, so it is skipped when a render for the step threw. -/
def stepImages (render : Nat → ImageOs → RenderOutcome) (step : KBAStep) :
    List GeneratedImage × List Event :=
  match step.imagePrompt, step.osType with
  | some p, some t =>
    if p = "" then ([], [])
    else
      let r := renderLoop render step.stepNumber p (osList t)
      (r.1, if r.2.2 then r.2.1 else r.2.1 ++ [Event.delay])
  | _, _ => ([], [])

def generateImagesSteps (render : Nat → ImageOs → RenderOutcome) :
    List KBAStep → List GeneratedImage × List Event
  | [] => ([], [])
  | step :: rest =>
    let a := stepImages render step
    let b := generateImagesSteps render rest
    (a.1 ++ b.1, a.2 ++ b.2)

/-- `OpenAIService.generateImages` (lines 135-176): returns the images pushed and the
trace of render requests and pacing delays, in issue order. -/
def generateImages (render : Nat → ImageOs → RenderOutcome) (content : KBAContent) :
    List GeneratedImage × List Event :=
  generateImagesSteps render content.steps

/-! ## KBAGeneratorWorkflow (src/workflows/kba-generator.ts) -/

/-- Outcomes of the external calls one `generateKBA` run can make. -/
structure GenOracle where
  content : Except String KBAContent
  render : Nat → ImageOs → RenderOutcome

/-- Outcomes of the external calls one `startWorkflow` run can make. -/
structure StartOracle where
  ticket : Except String JiraTicket
  questions : Except String (List String)
  gen : GenOracle

/-- JavaScript truthiness of `s.imagePrompt` used by
`content.steps.filter(s => s.imagePrompt)`. -/
def truthyPrompt (s : KBAStep) : Bool :=
  match s.imagePrompt with
  | some p => decide (p ≠ "")
  | none => false

/-- `showPreview`: posts the preview text, uploads each generated image to Slack, and
posts the approve/request-changes/cancel prompt.  It does not mutate the context map. -/
def showPreview (m : Contexts) (contextKey : String) : List Event :=
  match ctxGet m contextKey with
  | none => []
  | some ctx =>
    match ctx.kbaDraft with
    | none => []
    | some draft =>
      Event.msg ctx.channel ctx.threadTs (Msg.preview draft.content draft.images.length) ::
      draft.images.map (fun img => Event.previewUpload img.stepNumber img.osType) ++
      [Event.reviewPrompt ctx.channel ctx.threadTs contextKey]

/-- `generateKBA` (lines 143-197): marks the context `generating`, asks for content,
then (when some step carries an image prompt) for images; on success attaches the
draft and advances to `review`, on a content failure reports the error and deletes
the context. -/
def generateKBA (g : GenOracle) (m : Contexts) (contextKey : String) :
    Contexts × List Event :=
  match ctxGet m contextKey with
  | none => (m, [])
  | some ctx =>
    match ctx.jiraTicket with
    | none => (m, [])
    | some ticket =>
      let ctx1 := { ctx with stage := Stage.generating }
      let m1 := ctxSet m contextKey ctx1
      let evs1 := [Event.msg ctx1.channel ctx1.threadTs Msg.generatingContent,
                   Event.contentGen]
      match g.content with
      | Except.error e =>
        (ctxDel m1 contextKey,
         evs1 ++ [Event.msg ctx1.channel ctx1.threadTs (Msg.generationError e)])
      | Except.ok content =>
        let stepsWithImages := content.steps.filter truthyPrompt
        let imagesResult :=
          if 0 < stepsWithImages.length then generateImages g.render content
          else ([], [])
        let artMsg : List Event :=
          if 0 < stepsWithImages.length then
            [Event.msg ctx1.channel ctx1.threadTs (Msg.generatingImages stepsWithImages.length)]
          else []
        let draft : KBADraft := KBADraft.mk ticket content imagesResult.1 none
        let ctx2 := { ctx1 with kbaDraft := some draft, stage := Stage.review }
        let m2 := ctxSet m1 contextKey ctx2
        (m2, evs1 ++ artMsg ++ imagesResult.2 ++ showPreview m2 contextKey)

/-- `handleAnswer` (lines 104-138): ignored unless a context exists for the thread
key and is in the asking-questions stage; otherwise stores the text under the next
positional key and, once the answer count reaches the question count, announces
completion and runs `generateKBA`. -/
def handleAnswer (g : GenOracle) (m : Contexts)
    (channel threadTs userId answer : String) : Contexts × List Event :=
  let contextKey := channel ++ "-" ++ threadTs
  match ctxGet m contextKey with
  | none => (m, [])
  | some ctx =>
    if ctx.stage = Stage.asking_questions then
      let answerKey := "answer_" ++ toString (ctx.userAnswers.length + 1)
      let ctx1 := { ctx with userAnswers := ctx.userAnswers ++ [(answerKey, answer)] }
      let m1 := ctxSet m contextKey ctx1
      if ctx1.questionsAsked.length ≤ ctx1.userAnswers.length then
        let r := generateKBA g m1 contextKey
        (r.1, Event.msg channel threadTs Msg.allAnswered :: r.2)
      else
        (m1, [Event.msg channel threadTs
          (Msg.answersRemaining (ctx1.questionsAsked.length - ctx1.userAnswers.length))])
    else (m, [])

/-- `startWorkflow` (lines 27-99): parse the ticket key (on failure report and create
nothing), fetch the ticket (failures land in the catch block, which reports and
deletes the thread key), create the context, ask for clarifying questions (failures
likewise), then either skip straight to generation (zero questions) or post the
question list. -/
def startWorkflow (o : StartOracle) (m : Contexts)
    (channel threadTs userId jiraUrl : String) : Contexts × List Event :=
  let contextKey := channel ++ "-" ++ threadTs
  let ev0 := Event.msg channel threadTs Msg.analyzingTicket
  match extractTicketKey jiraUrl with
  | none => (m, [ev0, Event.msg channel threadTs Msg.parseError])
  | some _ticketKey =>
    match o.ticket with
    | Except.error e =>
      (ctxDel m contextKey, [ev0, Event.msg channel threadTs (Msg.startError e)])
    | Except.ok ticket =>
      let ctx0 : ConversationContext :=
        { threadTs := threadTs, channel := channel, userId := userId,
          jiraTicket := some ticket, kbaDraft := none,
          stage := Stage.analyzing, questionsAsked := [], userAnswers := [] }
      let m1 := ctxSet m contextKey ctx0
      let ev1 := Event.msg channel threadTs
        (Msg.foundTicket ticket.key ticket.summary ticket.status ticket.priority)
      match o.questions with
      | Except.error e =>
        (ctxDel m1 contextKey, [ev0, ev1, Event.msg channel threadTs (Msg.startError e)])
      | Except.ok questions =>
        let ctx1 := { ctx0 with questionsAsked := questions,
                                stage := Stage.asking_questions }
        let m2 := ctxSet m1 contextKey ctx1
        if questions.length = 0 then
          let r := generateKBA o.gen m2 contextKey
          (r.1, [ev0, ev1] ++ r.2)
        else
          (m2, [ev0, ev1, Event.msg channel threadTs (Msg.questionList questions)])

/-- `approveAndPublish` (lines 303-348): silently ignored without a context or a
draft; otherwise publishes.  On success the stage becomes `complete` (the context is
deleted only by a timer one minute later, so it is still present when the call
returns); on failure the error is reported and the map is left untouched.  When
`context.jiraTicket` is absent the `jiraTicket!.key` dereference inside the `try`
throws before the publish call and is caught by the same handler. -/
def approveAndPublish (publish : Except String String) (m : Contexts)
    (contextKey userId : String) : Contexts × List Event :=
  match ctxGet m contextKey with
  | none => (m, [])
  | some ctx =>
    match ctx.kbaDraft with
    | none => (m, [])
    | some _draft =>
      let ev0 := Event.msg ctx.channel ctx.threadTs Msg.publishing
      match ctx.jiraTicket with
      | none =>
        (m, [ev0, Event.msg ctx.channel ctx.threadTs
              (Msg.publishError "Cannot read properties of undefined")])
      | some ticket =>
        match publish with
        | Except.error e =>
          (m, [ev0, Event.publishCall,
               Event.msg ctx.channel ctx.threadTs (Msg.publishError e)])
        | Except.ok pageUrl =>
          let ctx1 := { ctx with stage := Stage.complete }
          (ctxSet m contextKey ctx1,
           [ev0, Event.publishCall,
            Event.msg ctx.channel ctx.threadTs (Msg.published pageUrl ticket.key)])

/-- `requestChanges` (lines 353-367): ignored without a context; otherwise prompts
for feedback and moves the stage back to `asking_questions` (the answer map and the
question list are left as they are). -/
def requestChanges (m : Contexts) (contextKey : String) : Contexts × List Event :=
  match ctxGet m contextKey with
  | none => (m, [])
  | some ctx =>
    let ctx1 := { ctx with stage := Stage.asking_questions }
    (ctxSet m contextKey ctx1,
     [Event.msg ctx.channel ctx.threadTs Msg.changesPrompt])

/-- `cancelKBA` (lines 372-385): ignored without a context; otherwise reports the
cancellation and deletes the context. -/
def cancelKBA (m : Contexts) (contextKey : String) : Contexts × List Event :=
  match ctxGet m contextKey with
  | none => (m, [])
  | some ctx =>
    (ctxDel m contextKey, [Event.msg ctx.channel ctx.threadTs Msg.cancelled])

/-! ## Traces of workflow operations

Each inbound event the workflow reacts to, bundled with the outcomes the external
collaborators would produce during its handling.  Reachable context-map states are
the results of running a list of operations from the empty map. -/

inductive Op where
  | start (channel threadTs userId jiraUrl : String) (o : StartOracle)
  | answer (channel threadTs userId text : String) (g : GenOracle)
  | approve (contextKey userId : String) (publish : Except String String)
  | reqChanges (contextKey : String)
  | cancel (contextKey : String)

def applyOp (m : Contexts) : Op → Contexts × List Event
  | .start channel threadTs userId jiraUrl o => startWorkflow o m channel threadTs userId jiraUrl
  | .answer channel threadTs userId text g => handleAnswer g m channel threadTs userId text
  | .approve contextKey userId publish => approveAndPublish publish m contextKey userId
  | .reqChanges contextKey => requestChanges m contextKey
  | .cancel contextKey => cancelKBA m contextKey

/-- Run a list of operations, accumulating the emitted events in order. -/
def runOpsEvents (m : Contexts) : List Op → Contexts × List Event
  | [] => (m, [])
  | op :: ops =>
    let r := applyOp m op
    let r2 := runOpsEvents r.1 ops
    (r2.1, r.2 ++ r2.2)

def runOps (m : Contexts) (ops : List Op) : Contexts :=
  (runOpsEvents m ops).1

/-- How often a list of operations presses "Request Changes" for a given thread key. -/
def rcCount (contextKey : String) : List Op → Nat
  | [] => 0
  | Op.reqChanges k :: ops => (if k = contextKey then 1 else 0) + rcCount contextKey ops
  | _ :: ops => rcCount contextKey ops

/-- Number of content-generation calls in an event trace. -/
def contentGenCount : List Event → Nat
  | [] => 0
  | Event.contentGen :: evs => 1 + contentGenCount evs
  | _ :: evs => contentGenCount evs

/-- Number of image-render requests in an event trace. -/
def imageReqCount : List Event → Nat
  | [] => 0
  | Event.imageReq _ _ :: evs => 1 + imageReqCount evs
  | _ :: evs => imageReqCount evs

/-- The pacing property the claim asserts of a render trace: between any two
consecutive render requests a delay occurs.  The scan fails as soon as a request
follows an earlier request with no delay in between. -/
def pacedFrom : Bool → List Event → Bool
  | _, [] => true
  | seenReq, Event.imageReq _ _ :: rest => !seenReq && pacedFrom true rest
  | _, Event.delay :: rest => pacedFrom false rest
  | seenReq, _ :: rest => pacedFrom seenReq rest

def paced (evs : List Event) : Bool := pacedFrom false evs

/-! ## ConfluenceService (page-body markup and attachment uploads) -/

/-- `ConfluenceService.escapeHTML`: the same chain of global replacements, in the
same order, as the source. -/
def escapeHTML (text : String) : String :=
  (((((text.replace "&" "&amp;").replace "<" "&lt;").replace ">" "&gt;").replace
      "\"" "&quot;").replace squote "&#39;").replace "\n" "<br/>"

/-- `${image.osType === 'mac' ? 'macOS' : 'Windows'}`. -/
def osLabel : ImageOs → String
  | .mac => "macOS"
  | .windows => "Windows"

/-- The string a `'mac' | 'windows'` value interpolates to. -/
def osTag : ImageOs → String
  | .mac => "mac"
  | .windows => "windows"

/-- The image block `generateConfluenceHTML` emits inside a step for each image whose
`stepNumber` equals the step's: a platform label and an attachment reference built as
`step-${step.stepNumber}-${image.osType}.png`. -/
def stepImageHTML (step : KBAStep) (image : GeneratedImage) : String :=
  "<p><strong>" ++ osLabel image.osType ++ ":</strong></p>\n" ++
  "<p><ac:image><ri:attachment ri:filename=\"step-" ++ toString step.stepNumber ++
  "-" ++ osTag image.osType ++ ".png\" /></ac:image></p>\n"

/-- One iteration of the `for (const step of content.steps)` loop of
`generateConfluenceHTML`. -/
def stepHTML (images : List GeneratedImage) (step : KBAStep) : String :=
  "<h3>Step " ++ toString step.stepNumber ++ "</h3>\n" ++
  "<p>" ++ escapeHTML step.description ++ "</p>\n" ++
  (match step.codeSnippet with
   | some code =>
     if code = "" then ""
     else
       "<ac:structured-macro ac:name=\"code\"><ac:plain-text-body><![CDATA[" ++ code ++
       "]]></ac:plain-text-body></ac:structured-macro>\n"
   | none => "") ++
  String.join
    ((images.filter (fun img => decide (img.stepNumber = step.stepNumber))).map
      (stepImageHTML step))

/-- `ConfluenceService.generateConfluenceHTML` (part_001, lines 77-124). -/
def generateConfluenceHTML (jiraHost : String) (content : KBAContent)
    (images : List GeneratedImage) (jiraKey : String) : String :=
  "<p><strong>Related Jira Ticket:</strong> <a href=\"" ++ jiraHost ++ "/browse/" ++
    jiraKey ++ "\">" ++ jiraKey ++ "</a></p>\n" ++
  "<h2>Problem</h2>\n<p>" ++ escapeHTML content.problem ++ "</p>\n" ++
  "<h2>Solution</h2>\n<p>" ++ escapeHTML content.solution ++ "</p>\n" ++
  "<h2>Step-by-Step Instructions</h2>\n" ++
  String.join (content.steps.map (stepHTML images)) ++
  (match content.additionalNotes with
   | some notes =>
     if notes = "" then ""
     else "<h2>Additional Notes</h2>\n<p>" ++ escapeHTML notes ++ "</p>\n"
   | none => "") ++
  "<p><strong>Tags:</strong> " ++ String.intercalate ", " content.tags ++ "</p>\n"

/-- The attachment filenames referenced by the page body, in emission order: one per
(step, matching image) pair, named `step-${step.stepNumber}-${image.osType}.png`
(part_001, line 111). -/
def referencedFilenames (content : KBAContent) (images : List GeneratedImage) :
    List String :=
  List.flatten (content.steps.map (fun step =>
    (images.filter (fun img => decide (img.stepNumber = step.stepNumber))).map
      (fun image =>
        "step-" ++ toString step.stepNumber ++ "-" ++ osTag image.osType ++ ".png")))

/-- `ConfluenceService.uploadImages` (part_001, lines 129-162): each image is
downloaded and uploaded under the filename `step-${image.stepNumber}-${image.osType}.png`
(line 138); a failing item is logged and skipped, and in every case the name the
upload uses is this one. -/
def uploadFilenames (images : List GeneratedImage) : List String :=
  images.map (fun image =>
    "step-" ++ toString image.stepNumber ++ "-" ++ osTag image.osType ++ ".png")

/-- The request-changes transitions a single operation contributes to a thread key. -/
def opRc : Op → String → Nat
  | Op.reqChanges k, contextKey => if k = contextKey then 1 else 0
  | _, _ => 0

/-- The per-context bound that actually holds along every run, with `r` standing for
the number of request-changes transitions recorded for the context's thread key:
every stored context keeps its ticket, an asking-questions context satisfies
`answers < questions + r + 1`, and any other context satisfies
`answers <= questions + r`. -/
def CtxInv (r : Nat) (ctx : ConversationContext) : Prop :=
  ctx.jiraTicket.isSome = true ∧
  (ctx.stage = Stage.asking_questions →
    ctx.userAnswers.length + 1 ≤ ctx.questionsAsked.length + r) ∧
  (ctx.stage ≠ Stage.asking_questions →
    ctx.userAnswers.length ≤ ctx.questionsAsked.length + r)

/-- Is this event the posting of the enumerated clarifying-question list? -/
def isQuestionListMsg : Event → Bool
  | Event.msg _ _ (Msg.questionList _) => true
  | _ => false

/-- Is this event the posting of a remaining-answer-count (waiting) message? -/
def isAnswersRemainingMsg : Event → Bool
  | Event.msg _ _ (Msg.answersRemaining _) => true
  | _ => false

/-- `x` occurs as a contiguous substring of `y`. -/
def SubstringOf (x y : String) : Prop :=
  ∃ p s, y = p ++ x ++ s

/-! ## A concrete run used to refute the answers-never-exceed-questions invariant -/

def cexTicket : JiraTicket :=
  JiraTicket.mk "TECH-1" "summary" "description" "Bug" "P1" "Open" none none "" "" [] none []

def cexContent : KBAContent := KBAContent.mk "t" "p" "s" [] none []

def cexGen : GenOracle :=
  GenOracle.mk (Except.ok cexContent) (fun _ _ => RenderOutcome.url "https://img")

def cexStart : StartOracle :=
  StartOracle.mk (Except.ok cexTicket) (Except.ok ["Q1"]) cexGen

/-- Start with one clarifying question, answer it, press request changes, send the
feedback message, press request changes again. -/
def cexOps : List Op :=
  [Op.start "C" "T" "U" "TECH-1" cexStart,
   Op.answer "C" "T" "U" "a1" cexGen,
   Op.reqChanges "C-T",
   Op.answer "C" "T" "U" "feedback" cexGen,
   Op.reqChanges "C-T"]

/-- A freshly questioned context: one clarifying question, no answers yet. -/
def askCtx : ConversationContext :=
  ConversationContext.mk "T" "C" "U" (some cexTicket) none Stage.asking_questions ["Q1"] []

def askMap : Contexts := [("C-T", askCtx)]

/-! # Theorems -/

/-! ## Context-map lemmas -/

@[simp]
theorem ctxGet_ctxSet_self (m : Contexts) (k : String) (c : ConversationContext) :
    ctxGet (ctxSet m k c) k = some c := by
  induction m with
  | nil => simp [ctxSet, ctxGet]
  | cons p m ih =>
    by_cases h : p.1 = k
    · simp [ctxSet, ctxGet, h]
    · simp [ctxSet, ctxGet, h, ih]

@[simp]
theorem ctxGet_ctxSet_ne (m : Contexts) (k k' : String) (c : ConversationContext)
    (h : k' ≠ k) : ctxGet (ctxSet m k c) k' = ctxGet m k' := by
  induction m with
  | nil => simp [ctxSet, ctxGet, Ne.symm h]
  | cons p m ih =>
    by_cases hp : p.1 = k
    · subst hp
      simp [ctxSet, ctxGet, Ne.symm h]
    · simp only [ctxSet, if_neg hp]
      by_cases hp' : p.1 = k'
      · simp [ctxGet, hp']
      · simp [ctxGet, hp', ih]

@[simp]
theorem ctxGet_ctxDel_self (m : Contexts) (k : String) :
    ctxGet (ctxDel m k) k = none := by
  induction m with
  | nil => simp [ctxDel, ctxGet]
  | cons p m ih =>
    by_cases h : p.1 = k
    · simp [ctxDel, h, ih]
    · simp [ctxDel, ctxGet, h, ih]

@[simp]
theorem ctxGet_ctxDel_ne (m : Contexts) (k k' : String) (h : k' ≠ k) :
    ctxGet (ctxDel m k) k' = ctxGet m k' := by
  induction m with
  | nil => simp [ctxDel]
  | cons p m ih =>
    by_cases hp : p.1 = k
    · subst hp
      simp [ctxDel, ctxGet, Ne.symm h, ih]
    · simp only [ctxDel, if_neg hp]
      by_cases hp' : p.1 = k'
      · simp [ctxGet, hp']
      · simp [ctxGet, hp', ih]

/-! ## Parser lemmas -/

theorem takeWhile_append_all {p : Char → Bool} {L : List Char} (r : List Char)
    (h : ∀ c ∈ L, p c = true) :
    (L ++ r).takeWhile p = L ++ r.takeWhile p := by
  induction L with
  | nil => simp
  | cons a L ih =>
    have ha := h a (List.mem_cons_self a L)
    simp [List.takeWhile_cons, ha, ih (fun c hc => h c (List.mem_cons_of_mem a hc))]

theorem dropWhile_append_all {p : Char → Bool} {L : List Char} (r : List Char)
    (h : ∀ c ∈ L, p c = true) :
    (L ++ r).dropWhile p = r.dropWhile p := by
  induction L with
  | nil => simp
  | cons a L ih =>
    have ha := h a (List.mem_cons_self a L)
    simp [List.dropWhile_cons, ha, ih (fun c hc => h c (List.mem_cons_of_mem a hc))]

theorem matchKeyAt_eq_some {cs m : List Char} (h : matchKeyAt cs = some m) :
    TicketShape m ∧ ∃ s, cs = m ++ s := by
  unfold matchKeyAt at h
  split at h
  · exact absurd h (by simp)
  · rename_i hls
    split at h
    · exact absurd h (by simp)
    · rename_i c rest hdw
      split at h
      · rename_i hc
        subst hc
        split at h
        · exact absurd h (by simp)
        · rename_i hds
          have hm : cs.takeWhile isUpperAZ ++ '-' :: rest.takeWhile isDigit09 = m :=
            Option.some_inj.mp h
          subst hm
          constructor
          · exact ⟨cs.takeWhile isUpperAZ, rest.takeWhile isDigit09, rfl, hls,
              fun c hc => List.mem_takeWhile_imp hc, hds,
              fun c hc => List.mem_takeWhile_imp hc⟩
          · refine ⟨rest.dropWhile isDigit09, ?_⟩
            conv_lhs => rw [← List.takeWhile_append_dropWhile isUpperAZ cs]
            rw [hdw]
            simp [List.takeWhile_append_dropWhile]
      · exact absurd h (by simp)

theorem matchKeyAt_of_shape {m : List Char} (hm : TicketShape m) (s : List Char) :
    (matchKeyAt (m ++ s)).isSome := by
  obtain ⟨L, D, rfl, hL, hLa, hD, hDa⟩ := hm
  have hdash : isUpperAZ '-' = false := by decide
  have hrw : (L ++ '-' :: D) ++ s = L ++ '-' :: (D ++ s) := by simp
  have h1 : ((L ++ '-' :: D) ++ s).takeWhile isUpperAZ = L := by
    rw [hrw, takeWhile_append_all _ hLa, List.takeWhile_cons, hdash]
    simp
  have h2 : ((L ++ '-' :: D) ++ s).dropWhile isUpperAZ = '-' :: (D ++ s) := by
    rw [hrw, dropWhile_append_all _ hLa, List.dropWhile_cons, hdash]
    simp
  have h3 : (D ++ s).takeWhile isDigit09 = D ++ s.takeWhile isDigit09 :=
    takeWhile_append_all _ hDa
  unfold matchKeyAt
  rw [h1, h2, if_neg hL]
  simp [h3, hD]

theorem matchKeyAt_nil : matchKeyAt [] = none := by
  simp [matchKeyAt]

theorem findKeyPattern_isSome_of_matchKeyAt {cs : List Char}
    (h : (matchKeyAt cs).isSome) : (findKeyPattern cs).isSome := by
  cases cs with
  | nil => rw [matchKeyAt_nil] at h; simp at h
  | cons c cs =>
    unfold findKeyPattern
    cases hma : matchKeyAt (c :: cs) with
    | some m => simp
    | none => rw [hma] at h; simp at h

theorem findKeyPattern_isSome_cons (c : Char) {cs : List Char}
    (h : (findKeyPattern cs).isSome) : (findKeyPattern (c :: cs)).isSome := by
  unfold findKeyPattern
  cases hma : matchKeyAt (c :: cs) with
  | some m => simp
  | none => exact h

theorem findKeyPattern_of_occurs {cs : List Char} (h : OccursIn cs) :
    (findKeyPattern cs).isSome := by
  obtain ⟨p, m, s, rfl, hm⟩ := h
  induction p with
  | nil =>
    simp only [List.nil_append]
    exact findKeyPattern_isSome_of_matchKeyAt (matchKeyAt_of_shape hm s)
  | cons a p ih => exact findKeyPattern_isSome_cons a ih

theorem findKeyPattern_eq_none_matchKeyAt {cs : List Char}
    (h : findKeyPattern cs = none) : matchKeyAt cs = none := by
  cases cs with
  | nil => exact matchKeyAt_nil
  | cons c cs =>
    unfold findKeyPattern at h
    cases hma : matchKeyAt (c :: cs) with
    | some m => rw [hma] at h; simp at h
    | none => rfl

theorem findKeyPattern_eq_none_tail {c : Char} {cs : List Char}
    (h : findKeyPattern (c :: cs) = none) : findKeyPattern cs = none := by
  unfold findKeyPattern at h
  cases hma : matchKeyAt (c :: cs) with
  | some m => rw [hma] at h; simp at h
  | none => rw [hma] at h; exact h

theorem findKeyPattern_eq_some {cs m : List Char} (h : findKeyPattern cs = some m) :
    TicketShape m ∧ ∃ p s, cs = p ++ m ++ s ∧
      ∀ j, j < p.length → matchKeyAt (cs.drop j) = none := by
  induction cs with
  | nil => simp [findKeyPattern] at h
  | cons c cs ih =>
    unfold findKeyPattern at h
    cases hma : matchKeyAt (c :: cs) with
    | some m0 =>
      rw [hma] at h
      have hm0 : m0 = m := by simpa using h
      subst hm0
      obtain ⟨hsh, s, hcs⟩ := matchKeyAt_eq_some hma
      exact ⟨hsh, [], s, by simpa using hcs, fun j hj => absurd hj (by simp)⟩
    | none =>
      rw [hma] at h
      obtain ⟨hsh, p, s, hcs, hnone⟩ := ih h
      refine ⟨hsh, c :: p, s, by simp [hcs], fun j hj => ?_⟩
      cases j with
      | zero => simpa using hma
      | succ j₁ =>
        have : j₁ < p.length := by simpa using hj
        simpa using hnone j₁ this

theorem findKeyPattern_leftmost {cs m : List Char} (h : findKeyPattern cs = some m) :
    TicketShape m ∧ ∃ p s, cs = p ++ m ++ s ∧
      ∀ p' m' s', cs = p' ++ m' ++ s' → TicketShape m' → p.length ≤ p'.length := by
  obtain ⟨hsh, p, s, hcs, hnone⟩ := findKeyPattern_eq_some h
  refine ⟨hsh, p, s, hcs, fun p' m' s' hcs' hsh' => ?_⟩
  by_contra hlt
  push_neg at hlt
  have hdrop : cs.drop p'.length = m' ++ s' := by
    rw [hcs', List.append_assoc]
    exact List.drop_left p' (m' ++ s')
  have hnone' := hnone p'.length hlt
  rw [hdrop] at hnone'
  have := matchKeyAt_of_shape hsh' s'
  rw [hnone'] at this
  simp at this

theorem findKeyPattern_eq_none_no_occurs {cs : List Char}
    (h : findKeyPattern cs = none) : ¬ OccursIn cs := by
  intro hocc
  have := findKeyPattern_of_occurs hocc
  rw [h] at this
  simp at this

theorem findBrowsePattern_eq_none {cs : List Char} (h : findKeyPattern cs = none) :
    findBrowsePattern cs = none := by
  induction cs with
  | nil => rfl
  | cons c cs ih =>
    have htail : findKeyPattern cs = none := findKeyPattern_eq_none_tail h
    unfold findBrowsePattern
    split
    · rename_i rest
      have hrest : findKeyPattern rest = none :=
        findKeyPattern_eq_none_tail (findKeyPattern_eq_none_tail
          (findKeyPattern_eq_none_tail (findKeyPattern_eq_none_tail
            (findKeyPattern_eq_none_tail (findKeyPattern_eq_none_tail htail)))))
      rw [findKeyPattern_eq_none_matchKeyAt hrest]
      exact ih htail
    · exact ih htail

theorem extractTicketKey_eq (text : String) :
    extractTicketKey text = (findKeyPattern text.data).map (fun l => String.mk l) := by
  unfold extractTicketKey
  cases hk : findKeyPattern text.data with
  | some m => simp
  | none => rw [findBrowsePattern_eq_none hk]; simp

/-- Claim C7: for every text input, the ticket-reference parser returns the first
(leftmost) substring of letters-dash-digits shape — whether standalone or embedded in
a URL path segment — returns `none` when no such substring occurs, and (being a total
function) never throws on arbitrary input. -/
theorem extractTicketKey_spec (text : String) :
    (extractTicketKey text = none ↔ ¬ OccursIn text.data) ∧
    (∀ k, extractTicketKey text = some k →
      TicketShape k.data ∧
      ∃ p s, text.data = p ++ k.data ++ s ∧
        ∀ p' m' s', text.data = p' ++ m' ++ s' → TicketShape m' →
          p.length ≤ p'.length) := by
  constructor
  · constructor
    · intro h
      rw [extractTicketKey_eq] at h
      have hnone : findKeyPattern text.data = none := by
        cases hk : findKeyPattern text.data with
        | none => rfl
        | some m => rw [hk] at h; simp at h
      exact findKeyPattern_eq_none_no_occurs hnone
    · intro hno
      rw [extractTicketKey_eq]
      cases hk : findKeyPattern text.data with
      | none => rfl
      | some m =>
        obtain ⟨hsh, p, s, hdec, -⟩ := findKeyPattern_leftmost hk
        exact absurd ⟨p, m, s, hdec, hsh⟩ hno
  · intro k hk
    rw [extractTicketKey_eq] at hk
    cases hfk : findKeyPattern text.data with
    | none => rw [hfk] at hk; simp at hk
    | some m =>
      rw [hfk] at hk
      have hkm : k = String.mk m := by simpa using hk.symm
      subst hkm
      obtain ⟨hsh, p, s, hdec, hmin⟩ := findKeyPattern_leftmost hfk
      exact ⟨hsh, p, s, hdec, hmin⟩

/-- Witness for C7 at the spec scenario input `"https://host/browse/TECH-456"`:
the parser result `TECH-456` indeed has the ticket-key shape. -/
theorem extractTicketKey_spec_witness : TicketShape (String.data "TECH-456") :=
  ((extractTicketKey_spec "https://host/browse/TECH-456").2 "TECH-456" (by decide)).1

/-! ## Image generation (C3, C4) -/

/-- Counterexample to C3 as stated: for the spec scenario (two steps, only step 1
with an image prompt targeted at both platforms, every render succeeding) the trace
is request, request, delay — the two render requests for step 1 are adjacent, with
no pacing delay between them; the single delay comes after the step's batch. -/
theorem no_delay_between_same_step_renders :
    (generateImages (fun _ _ => RenderOutcome.url "https://img")
        (KBAContent.mk "T" "P" "S"
          [KBAStep.mk 1 "step one" (some "a dialog") (some OsType.both) none,
           KBAStep.mk 2 "step two" none none none] none [])).2 =
      [Event.imageReq 1 ImageOs.mac, Event.imageReq 1 ImageOs.windows, Event.delay] ∧
    paced (generateImages (fun _ _ => RenderOutcome.url "https://img")
        (KBAContent.mk "T" "P" "S"
          [KBAStep.mk 1 "step one" (some "a dialog") (some OsType.both) none,
           KBAStep.mk 2 "step two" none none none] none [])).2 = false := by
  constructor
  · rfl
  · rfl

/-- Claim C3 (amended): in the two-step scenario where only step 1 carries an image
prompt with target platform both, exactly two render requests are issued, sequentially
in step order (mac before windows for step 1, none for step 2); the enforced pacing
delay is issued after the step's batch of renders, not between the two requests of
the same step. -/
theorem generateImages_both_scenario (t pb so d1 d2 p u : String) (hp : p ≠ "") :
    (generateImages (fun _ _ => RenderOutcome.url u)
        (KBAContent.mk t pb so
          [KBAStep.mk 1 d1 (some p) (some OsType.both) none,
           KBAStep.mk 2 d2 none none none] none [])).2 =
      [Event.imageReq 1 ImageOs.mac, Event.imageReq 1 ImageOs.windows, Event.delay] ∧
    imageReqCount (generateImages (fun _ _ => RenderOutcome.url u)
        (KBAContent.mk t pb so
          [KBAStep.mk 1 d1 (some p) (some OsType.both) none,
           KBAStep.mk 2 d2 none none none] none [])).2 = 2 := by
  have h : (generateImages (fun _ _ => RenderOutcome.url u)
      (KBAContent.mk t pb so
        [KBAStep.mk 1 d1 (some p) (some OsType.both) none,
         KBAStep.mk 2 d2 none none none] none [])).2 =
      [Event.imageReq 1 ImageOs.mac, Event.imageReq 1 ImageOs.windows, Event.delay] := by
    simp [generateImages, generateImagesSteps, stepImages, renderLoop, osList, hp]
  refine ⟨h, ?_⟩
  rw [h]
  rfl

/-- Witness for the amended C3 theorem at concrete strings. -/
theorem generateImages_both_scenario_witness :
    (generateImages (fun _ _ => RenderOutcome.url "u")
        (KBAContent.mk "t" "pb" "so"
          [KBAStep.mk 1 "d1" (some "p") (some OsType.both) none,
           KBAStep.mk 2 "d2" none none none] none [])).2 =
      [Event.imageReq 1 ImageOs.mac, Event.imageReq 1 ImageOs.windows, Event.delay] :=
  (generateImages_both_scenario "t" "pb" "so" "d1" "d2" "p" "u" (by decide)).1

/-- Counterexample to C4 as stated: with a single step targeted at both platforms,
the mac render failing and the windows render set up to succeed, the windows render
is never requested (the step-level catch aborts it) and the returned image list is
empty rather than containing the would-be-successful (1, windows) pair. -/
theorem same_step_render_skipped_after_failure :
    (generateImages
        (fun _ os => match os with
          | ImageOs.mac => RenderOutcome.fail "boom"
          | ImageOs.windows => RenderOutcome.url "https://img")
        (KBAContent.mk "T" "P" "S"
          [KBAStep.mk 1 "step one" (some "a dialog") (some OsType.both) none]
          none [])).1 = [] ∧
    (generateImages
        (fun _ os => match os with
          | ImageOs.mac => RenderOutcome.fail "boom"
          | ImageOs.windows => RenderOutcome.url "https://img")
        (KBAContent.mk "T" "P" "S"
          [KBAStep.mk 1 "step one" (some "a dialog") (some OsType.both) none]
          none [])).2 = [Event.imageReq 1 ImageOs.mac] ∧
    (fun (_ : Nat) os => match os with
          | ImageOs.mac => RenderOutcome.fail "boom"
          | ImageOs.windows => RenderOutcome.url "https://img") 1 ImageOs.windows =
      RenderOutcome.url "https://img" := by
  refine ⟨rfl, rfl, rfl⟩

theorem generateImagesSteps_append (render : Nat → ImageOs → RenderOutcome)
    (l1 l2 : List KBAStep) :
    generateImagesSteps render (l1 ++ l2) =
      ((generateImagesSteps render l1).1 ++ (generateImagesSteps render l2).1,
       (generateImagesSteps render l1).2 ++ (generateImagesSteps render l2).2) := by
  induction l1 with
  | nil => simp [generateImagesSteps]
  | cons step l1 ih => simp [generateImagesSteps, ih]

/-- Claim C4 (amended): a failed render aborts the remaining renders of the same
step (and the step's pacing delay), but neither the renders of other steps nor the
workflow.  Part one: the images and trace of a batch split over any two groups of
steps are the concatenation of the groups' own images and traces, so a failure in one
step never affects another step.  Part two: in a both-platform step whose mac render
fails, the windows render is not attempted and the step yields no images.  Part
three: for every render oracle — whatever subset of renders fails — a successful
content generation still advances the context to the review stage with the draft
attached, and the attached image list is exactly what the image-generation routine
returned. -/
theorem image_failure_containment :
    (∀ (render : Nat → ImageOs → RenderOutcome) (l1 l2 : List KBAStep),
      generateImagesSteps render (l1 ++ l2) =
        ((generateImagesSteps render l1).1 ++ (generateImagesSteps render l2).1,
         (generateImagesSteps render l1).2 ++ (generateImagesSteps render l2).2)) ∧
    (∀ (render : Nat → ImageOs → RenderOutcome) (n : Nat) (d p e : String)
      (cs : Option String), p ≠ "" → render n ImageOs.mac = RenderOutcome.fail e →
      stepImages render (KBAStep.mk n d (some p) (some OsType.both) cs) =
        ([], [Event.imageReq n ImageOs.mac])) ∧
    (∀ (g : GenOracle) (m : Contexts) (contextKey : String)
      (ctx : ConversationContext) (ticket : JiraTicket) (content : KBAContent),
      ctxGet m contextKey = some ctx → ctx.jiraTicket = some ticket →
      g.content = Except.ok content →
      ∃ ctx', ctxGet (generateKBA g m contextKey).1 contextKey = some ctx' ∧
        ctx'.stage = Stage.review ∧
        ctx'.kbaDraft = some (KBADraft.mk ticket content
          (if 0 < (content.steps.filter truthyPrompt).length then
            (generateImages g.render content).1
          else []) none)) := by
  refine ⟨generateImagesSteps_append, ?_, ?_⟩
  · intro render n d p e cs hp hfail
    simp [stepImages, renderLoop, osList, hp, hfail]
  · intro g m contextKey ctx ticket content hget hticket hcontent
    unfold generateKBA
    simp only [hget, hticket, hcontent]
    refine ⟨_, ctxGet_ctxSet_self _ _ _, rfl, ?_⟩
    simp only [apply_ite Prod.fst]

/-- Witness for the amended C4 theorem: a concrete run in which the only render of a
two-step batch that fails is step 1's mac render still reaches review, and the draft
contains exactly the images of the non-failed steps. -/
theorem image_failure_containment_witness :
    ∃ ctx', ctxGet (generateKBA
        (GenOracle.mk
          (Except.ok (KBAContent.mk "T" "P" "S"
            [KBAStep.mk 1 "one" (some "pr") (some OsType.both) none,
             KBAStep.mk 2 "two" (some "pr2") (some OsType.mac) none] none []))
          (fun n _ => if n = 1 then RenderOutcome.fail "boom"
                      else RenderOutcome.url "https://img"))
        [("C-T", ConversationContext.mk "T" "C" "U"
            (some (JiraTicket.mk "TECH-1" "s" "d" "Bug" "P1" "Open" none none "" "" [] none []))
            none Stage.asking_questions ["Q1"] [("answer_1", "a")])]
        "C-T").1 "C-T" = some ctx' ∧
      ctx'.stage = Stage.review ∧
      ctx'.kbaDraft = some (KBADraft.mk
        (JiraTicket.mk "TECH-1" "s" "d" "Bug" "P1" "Open" none none "" "" [] none [])
        (KBAContent.mk "T" "P" "S"
          [KBAStep.mk 1 "one" (some "pr") (some OsType.both) none,
           KBAStep.mk 2 "two" (some "pr2") (some OsType.mac) none] none [])
        (if 0 < ((KBAContent.mk "T" "P" "S"
            [KBAStep.mk 1 "one" (some "pr") (some OsType.both) none,
             KBAStep.mk 2 "two" (some "pr2") (some OsType.mac) none] none
            []).steps.filter truthyPrompt).length then
          (generateImages (fun n _ => if n = 1 then RenderOutcome.fail "boom"
                      else RenderOutcome.url "https://img")
            (KBAContent.mk "T" "P" "S"
              [KBAStep.mk 1 "one" (some "pr") (some OsType.both) none,
               KBAStep.mk 2 "two" (some "pr2") (some OsType.mac) none] none [])).1
        else []) none) :=
  image_failure_containment.2.2
    (GenOracle.mk
      (Except.ok (KBAContent.mk "T" "P" "S"
        [KBAStep.mk 1 "one" (some "pr") (some OsType.both) none,
         KBAStep.mk 2 "two" (some "pr2") (some OsType.mac) none] none []))
      (fun n _ => if n = 1 then RenderOutcome.fail "boom"
                  else RenderOutcome.url "https://img"))
    [("C-T", ConversationContext.mk "T" "C" "U"
        (some (JiraTicket.mk "TECH-1" "s" "d" "Bug" "P1" "Open" none none "" "" [] none []))
        none Stage.asking_questions ["Q1"] [("answer_1", "a")])]
    "C-T" _ _ _ rfl rfl rfl

/-! ## Workflow lemmas -/

theorem contentGenCount_append (a b : List Event) :
    contentGenCount (a ++ b) = contentGenCount a + contentGenCount b := by
  induction a with
  | nil => simp [contentGenCount]
  | cons e a ih => cases e <;> simp [contentGenCount, ih, Nat.add_assoc]

theorem contentGenCount_renderLoop (render : Nat → ImageOs → RenderOutcome)
    (n : Nat) (p : String) (oss : List ImageOs) :
    contentGenCount (renderLoop render n p oss).2.1 = 0 := by
  induction oss with
  | nil => rfl
  | cons os rest ih =>
    cases h : render n os <;> simp [renderLoop, h, contentGenCount, ih]

theorem contentGenCount_stepImages (render : Nat → ImageOs → RenderOutcome)
    (step : KBAStep) : contentGenCount (stepImages render step).2 = 0 := by
  unfold stepImages
  cases hp : step.imagePrompt with
  | none => cases step.osType <;> rfl
  | some p =>
    cases ht : step.osType with
    | none => rfl
    | some t =>
      by_cases hpe : p = ""
      · simp [hpe, contentGenCount]
      · simp only [if_neg hpe]
        by_cases hfail : (renderLoop render step.stepNumber p (osList t)).2.2
        · simp [hfail, contentGenCount_renderLoop]
        · simp [hfail, contentGenCount_append, contentGenCount_renderLoop, contentGenCount]

theorem contentGenCount_generateImagesSteps (render : Nat → ImageOs → RenderOutcome)
    (steps : List KBAStep) :
    contentGenCount (generateImagesSteps render steps).2 = 0 := by
  induction steps with
  | nil => rfl
  | cons step rest ih =>
    simp [generateImagesSteps, contentGenCount_append, contentGenCount_stepImages, ih]

theorem contentGenCount_previewUploads (l : List GeneratedImage) :
    contentGenCount (l.map (fun img => Event.previewUpload img.stepNumber img.osType)) = 0 := by
  induction l with
  | nil => rfl
  | cons img l ih => simp [contentGenCount, ih]

theorem contentGenCount_showPreview (m : Contexts) (contextKey : String) :
    contentGenCount (showPreview m contextKey) = 0 := by
  unfold showPreview
  cases hget : ctxGet m contextKey with
  | none => rfl
  | some ctx =>
    cases hd : ctx.kbaDraft with
    | none => simp [hd, contentGenCount]
    | some draft =>
      simp [hd, contentGenCount, contentGenCount_append, contentGenCount_previewUploads]

theorem generateKBA_error (g : GenOracle) (m : Contexts) (contextKey : String)
    (ctx : ConversationContext) (t : JiraTicket) (e : String)
    (hget : ctxGet m contextKey = some ctx) (ht : ctx.jiraTicket = some t)
    (he : g.content = Except.error e) :
    ctxGet (generateKBA g m contextKey).1 contextKey = none ∧
    contentGenCount (generateKBA g m contextKey).2 = 1 := by
  unfold generateKBA
  simp [hget, ht, he, contentGenCount]

theorem generateKBA_ok (g : GenOracle) (m : Contexts) (contextKey : String)
    (ctx : ConversationContext) (t : JiraTicket) (content : KBAContent)
    (hget : ctxGet m contextKey = some ctx) (ht : ctx.jiraTicket = some t)
    (hc : g.content = Except.ok content) :
    (∃ ctx', ctxGet (generateKBA g m contextKey).1 contextKey = some ctx' ∧
      ctx'.stage = Stage.review ∧ ctx'.userAnswers = ctx.userAnswers ∧
      ctx'.questionsAsked = ctx.questionsAsked ∧ ctx'.jiraTicket = ctx.jiraTicket ∧
      ctx'.kbaDraft.isSome = true) ∧
    contentGenCount (generateKBA g m contextKey).2 = 1 := by
  unfold generateKBA
  simp only [hget, ht, hc]
  constructor
  · exact ⟨_, ctxGet_ctxSet_self _ _ _, rfl, rfl, rfl, rfl, rfl⟩
  · by_cases h0 : 0 < (content.steps.filter truthyPrompt).length
    · simp [h0, contentGenCount, contentGenCount_append, contentGenCount_showPreview,
            contentGenCount_generateImagesSteps, generateImages]
    · simp [h0, contentGenCount, contentGenCount_append, contentGenCount_showPreview]

theorem handleAnswer_no_context (g : GenOracle) (m : Contexts)
    (channel threadTs userId answer : String)
    (h : ctxGet m (channel ++ "-" ++ threadTs) = none) :
    handleAnswer g m channel threadTs userId answer = (m, []) := by
  unfold handleAnswer
  simp [h]

theorem handleAnswer_wrong_stage (g : GenOracle) (m : Contexts)
    (channel threadTs userId answer : String) (ctx : ConversationContext)
    (h : ctxGet m (channel ++ "-" ++ threadTs) = some ctx)
    (hs : ctx.stage ≠ Stage.asking_questions) :
    handleAnswer g m channel threadTs userId answer = (m, []) := by
  unfold handleAnswer
  simp [h, hs]

theorem handleAnswer_continue (g : GenOracle) (m : Contexts)
    (channel threadTs userId answer : String) (ctx : ConversationContext)
    (h : ctxGet m (channel ++ "-" ++ threadTs) = some ctx)
    (hs : ctx.stage = Stage.asking_questions)
    (hlt : ctx.userAnswers.length + 1 < ctx.questionsAsked.length) :
    handleAnswer g m channel threadTs userId answer =
      (ctxSet m (channel ++ "-" ++ threadTs)
        { ctx with userAnswers := ctx.userAnswers ++
            [("answer_" ++ toString (ctx.userAnswers.length + 1), answer)] },
       [Event.msg channel threadTs
         (Msg.answersRemaining
           (ctx.questionsAsked.length - (ctx.userAnswers.length + 1)))]) := by
  unfold handleAnswer
  have hnle : ¬ (ctx.questionsAsked.length ≤ ctx.userAnswers.length + 1) := by omega
  simp [h, hs, hnle]

theorem handleAnswer_trigger (g : GenOracle) (m : Contexts)
    (channel threadTs userId answer : String) (ctx : ConversationContext)
    (h : ctxGet m (channel ++ "-" ++ threadTs) = some ctx)
    (hs : ctx.stage = Stage.asking_questions)
    (hge : ctx.questionsAsked.length ≤ ctx.userAnswers.length + 1) :
    handleAnswer g m channel threadTs userId answer =
      ((generateKBA g (ctxSet m (channel ++ "-" ++ threadTs)
          { ctx with userAnswers := ctx.userAnswers ++
              [("answer_" ++ toString (ctx.userAnswers.length + 1), answer)] })
          (channel ++ "-" ++ threadTs)).1,
       Event.msg channel threadTs Msg.allAnswered ::
         (generateKBA g (ctxSet m (channel ++ "-" ++ threadTs)
            { ctx with userAnswers := ctx.userAnswers ++
                [("answer_" ++ toString (ctx.userAnswers.length + 1), answer)] })
            (channel ++ "-" ++ threadTs)).2) := by
  unfold handleAnswer
  simp [h, hs, hge]

theorem runAnswers_noop (g : GenOracle) (channel threadTs userId : String) :
    ∀ (answers : List String) (m : Contexts),
      (∀ ctx, ctxGet m (channel ++ "-" ++ threadTs) = some ctx →
        ctx.stage ≠ Stage.asking_questions) →
      runOpsEvents m (answers.map (fun a => Op.answer channel threadTs userId a g)) =
        (m, []) := by
  intro answers
  induction answers with
  | nil => intro m h; rfl
  | cons a answers ih =>
    intro m h
    have hstep : handleAnswer g m channel threadTs userId a = (m, []) := by
      cases hget : ctxGet m (channel ++ "-" ++ threadTs) with
      | none => exact handleAnswer_no_context g m channel threadTs userId a hget
      | some ctx =>
        exact handleAnswer_wrong_stage g m channel threadTs userId a ctx hget (h ctx hget)
    simp [runOpsEvents, applyOp, hstep, ih m h]

theorem runAnswers_ask (g : GenOracle) (channel threadTs userId : String) :
    ∀ (answers : List String) (m : Contexts) (ctx : ConversationContext),
      ctxGet m (channel ++ "-" ++ threadTs) = some ctx →
      ctx.stage = Stage.asking_questions →
      ctx.jiraTicket.isSome = true →
      ctx.userAnswers.length < ctx.questionsAsked.length →
      contentGenCount (runOpsEvents m
          (answers.map (fun a => Op.answer channel threadTs userId a g))).2 =
        (if ctx.questionsAsked.length ≤ ctx.userAnswers.length + answers.length
         then 1 else 0) ∧
      ∀ ctx', ctxGet (runOpsEvents m
          (answers.map (fun a => Op.answer channel threadTs userId a g))).1
          (channel ++ "-" ++ threadTs) = some ctx' →
        ctx'.userAnswers.length =
          min (ctx.userAnswers.length + answers.length) ctx.questionsAsked.length := by
  intro answers
  induction answers with
  | nil =>
    intro m ctx hget hs ht hlt
    refine ⟨?_, ?_⟩
    · simp only [List.map_nil, runOpsEvents, List.length_nil, Nat.add_zero]
      rw [if_neg (by omega)]
      rfl
    · intro ctx' hget'
      simp only [List.map_nil, runOpsEvents] at hget'
      rw [hget] at hget'
      obtain rfl : ctx = ctx' := Option.some_inj.mp hget'
      simp only [List.length_nil, Nat.add_zero]
      omega
  | cons a answers ih =>
    intro m ctx hget hs ht hlt
    obtain ⟨t, htick⟩ := Option.isSome_iff_exists.mp ht
    by_cases htrig : ctx.questionsAsked.length ≤ ctx.userAnswers.length + 1
    · have hstep := handleAnswer_trigger g m channel threadTs userId a ctx hget hs htrig
      have hget1 : ctxGet (ctxSet m (channel ++ "-" ++ threadTs)
          { ctx with userAnswers := ctx.userAnswers ++
              [("answer_" ++ toString (ctx.userAnswers.length + 1), a)] })
          (channel ++ "-" ++ threadTs) = some
          { ctx with userAnswers := ctx.userAnswers ++
              [("answer_" ++ toString (ctx.userAnswers.length + 1), a)] } :=
        ctxGet_ctxSet_self _ _ _
      cases hc : g.content with
      | error e =>
        obtain ⟨hnone, hcount⟩ := generateKBA_error g _ _ _ t e hget1 htick hc
        have hnoop := runAnswers_noop g channel threadTs userId answers _
          (fun c hc' => by rw [hnone] at hc'; cases hc')
        refine ⟨?_, ?_⟩
        · simp only [List.map_cons, runOpsEvents, applyOp, hstep, hnoop,
            contentGenCount_append, contentGenCount, List.append_nil]
          rw [hcount, if_pos (by simp; omega)]
        · intro ctx' hget'
          simp only [List.map_cons, runOpsEvents, applyOp, hstep, hnoop] at hget'
          rw [hnone] at hget'
          cases hget'
      | ok content =>
        obtain ⟨⟨ctx'', hget'', hstage'', hans'', hq'', htick'', hdraft''⟩, hcount⟩ :=
          generateKBA_ok g _ _ _ t content hget1 htick hc
        have hnoop := runAnswers_noop g channel threadTs userId answers _
          (fun c hc' => by
            rw [hget''] at hc'
            obtain rfl : ctx'' = c := Option.some_inj.mp hc'
            rw [hstage'']
            simp)
        refine ⟨?_, ?_⟩
        · simp only [List.map_cons, runOpsEvents, applyOp, hstep, hnoop,
            contentGenCount_append, contentGenCount, List.append_nil]
          rw [hcount, if_pos (by simp; omega)]
        · intro ctx' hget'
          simp only [List.map_cons, runOpsEvents, applyOp, hstep, hnoop] at hget'
          rw [hget''] at hget'
          obtain rfl : ctx'' = ctx' := Option.some_inj.mp hget'
          rw [hans'']
          simp only [List.length_append, List.length_cons, List.length_nil, List.length_cons]
          simp
          omega
    · have hlt1 : ctx.userAnswers.length + 1 < ctx.questionsAsked.length := by omega
      have hstep := handleAnswer_continue g m channel threadTs userId a ctx hget hs hlt1
      have hget1 : ctxGet (ctxSet m (channel ++ "-" ++ threadTs)
          { ctx with userAnswers := ctx.userAnswers ++
              [("answer_" ++ toString (ctx.userAnswers.length + 1), a)] })
          (channel ++ "-" ++ threadTs) = some
          { ctx with userAnswers := ctx.userAnswers ++
              [("answer_" ++ toString (ctx.userAnswers.length + 1), a)] } :=
        ctxGet_ctxSet_self _ _ _
      obtain ⟨ihc, ihm⟩ := ih _ _ hget1 hs ht (by simp; omega)
      refine ⟨?_, ?_⟩
      · simp only [List.map_cons, runOpsEvents, applyOp, hstep,
          contentGenCount_append, contentGenCount]
        rw [ihc]
        simp only [List.length_append, List.length_cons, List.length_nil, List.length_cons]
        by_cases hN : ctx.questionsAsked.length ≤ ctx.userAnswers.length + (answers.length + 1)
        · rw [if_pos (by omega), if_pos (by omega)]
        · rw [if_neg (by omega), if_neg (by omega)]
      · intro ctx' hget'
        simp only [List.map_cons, runOpsEvents, applyOp, hstep] at hget'
        have := ihm ctx' hget'
        rw [this]
        simp only [List.length_append, List.length_cons, List.length_nil]
        omega

/-- Claim C1: an answer event with no context for the thread key, or with a context
outside the asking-questions stage, is silently ignored with no state change; from a
freshly questioned context with N ≥ 1 questions and no answers, a run of answer
submissions calls content generation exactly once when at least N answers are
submitted and never when fewer are, and the answer set of the surviving context never
holds more than N entries (`min answers N`). -/
theorem handleAnswer_triggers_generation_once :
    (∀ (g : GenOracle) (m : Contexts) (channel threadTs userId answer : String),
      ctxGet m (channel ++ "-" ++ threadTs) = none →
      handleAnswer g m channel threadTs userId answer = (m, [])) ∧
    (∀ (g : GenOracle) (m : Contexts) (channel threadTs userId answer : String)
      (ctx : ConversationContext),
      ctxGet m (channel ++ "-" ++ threadTs) = some ctx →
      ctx.stage ≠ Stage.asking_questions →
      handleAnswer g m channel threadTs userId answer = (m, [])) ∧
    (∀ (g : GenOracle) (m : Contexts) (channel threadTs userId : String)
      (answers : List String) (ctx : ConversationContext),
      ctxGet m (channel ++ "-" ++ threadTs) = some ctx →
      ctx.stage = Stage.asking_questions →
      ctx.jiraTicket.isSome = true →
      ctx.userAnswers = [] →
      1 ≤ ctx.questionsAsked.length →
      contentGenCount (runOpsEvents m
          (answers.map (fun a => Op.answer channel threadTs userId a g))).2 =
        (if ctx.questionsAsked.length ≤ answers.length then 1 else 0) ∧
      ∀ ctx', ctxGet (runOpsEvents m
          (answers.map (fun a => Op.answer channel threadTs userId a g))).1
          (channel ++ "-" ++ threadTs) = some ctx' →
        ctx'.userAnswers.length = min answers.length ctx.questionsAsked.length) := by
  refine ⟨handleAnswer_no_context, handleAnswer_wrong_stage, ?_⟩
  intro g m channel threadTs userId answers ctx hget hs ht hua hN
  have hlen : ctx.userAnswers.length = 0 := by rw [hua]; rfl
  obtain ⟨hcount, hmin⟩ := runAnswers_ask g channel threadTs userId answers m ctx
    hget hs ht (by omega)
  rw [hlen] at hcount hmin
  simp only [Nat.zero_add] at hcount hmin
  exact ⟨hcount, hmin⟩

/-- Witness for C1: from the one-question context, two answer submissions produce
exactly one content-generation call. -/
theorem handleAnswer_triggers_generation_once_witness :
    contentGenCount (runOpsEvents askMap
      (["a1", "a2"].map (fun a => Op.answer "C" "T" "U" a cexGen))).2 = 1 := by
  have h := handleAnswer_triggers_generation_once.2.2 cexGen askMap "C" "T" "U"
    ["a1", "a2"] askCtx (by decide) rfl rfl rfl (by decide)
  simpa using h.1

/-- Claim C10: approve, request-changes, and cancel with an unknown thread key — and
approve on a context that has no draft — are silent no-ops: the context map is left
unchanged and no event (in particular no outbound message) is emitted. -/
theorem unknown_context_ops_noop :
    (∀ (p : Except String String) (m : Contexts) (contextKey userId : String),
      ctxGet m contextKey = none →
      approveAndPublish p m contextKey userId = (m, [])) ∧
    (∀ (m : Contexts) (contextKey : String),
      ctxGet m contextKey = none → requestChanges m contextKey = (m, [])) ∧
    (∀ (m : Contexts) (contextKey : String),
      ctxGet m contextKey = none → cancelKBA m contextKey = (m, [])) ∧
    (∀ (p : Except String String) (m : Contexts) (contextKey userId : String)
      (ctx : ConversationContext),
      ctxGet m contextKey = some ctx → ctx.kbaDraft = none →
      approveAndPublish p m contextKey userId = (m, [])) := by
  refine ⟨?_, ?_, ?_, ?_⟩
  · intro p m contextKey userId h
    unfold approveAndPublish
    simp [h]
  · intro m contextKey h
    unfold requestChanges
    simp [h]
  · intro m contextKey h
    unfold cancelKBA
    simp [h]
  · intro p m contextKey userId ctx h hd
    unfold approveAndPublish
    simp [h, hd]

/-- Witness for C10 on the empty map and on a draftless context. -/
theorem unknown_context_ops_noop_witness :
    approveAndPublish (Except.ok "https://wiki/page") [] "C-T" "U" = ([], []) ∧
    requestChanges [] "C-T" = ([], []) ∧
    cancelKBA [] "C-T" = ([], []) ∧
    approveAndPublish (Except.ok "https://wiki/page") askMap "C-T" "U" = (askMap, []) :=
  ⟨unknown_context_ops_noop.1 (Except.ok "https://wiki/page") [] "C-T" "U" rfl,
   unknown_context_ops_noop.2.1 [] "C-T" rfl,
   unknown_context_ops_noop.2.2.1 [] "C-T" rfl,
   unknown_context_ops_noop.2.2.2 (Except.ok "https://wiki/page") askMap "C-T" "U"
     askCtx (by decide) rfl⟩

/-- Claim C5: with a context and a draft present, a failing publish call leaves the
context map untouched — the context stays retrievable, in whatever stage with
whatever draft it had — and reports the publish error; a subsequent approval on the
same context passes the guard again, makes the publish call, and never calls content
generation; on a successful retry the stage becomes `complete` with the draft
unchanged.  By contrast, a content-generation failure deletes the context. -/
theorem approve_failure_retains_context :
    (∀ (m : Contexts) (contextKey userId e : String) (ctx : ConversationContext),
      ctxGet m contextKey = some ctx → ctx.kbaDraft.isSome = true →
      ctx.jiraTicket.isSome = true →
      (approveAndPublish (Except.error e) m contextKey userId).1 = m ∧
      Event.msg ctx.channel ctx.threadTs (Msg.publishError e) ∈
        (approveAndPublish (Except.error e) m contextKey userId).2) ∧
    (∀ (p : Except String String) (m : Contexts) (contextKey userId : String)
      (ctx : ConversationContext),
      ctxGet m contextKey = some ctx → ctx.kbaDraft.isSome = true →
      ctx.jiraTicket.isSome = true →
      Event.publishCall ∈ (approveAndPublish p m contextKey userId).2 ∧
      contentGenCount (approveAndPublish p m contextKey userId).2 = 0 ∧
      ∀ page, p = Except.ok page →
        ∃ ctx', ctxGet (approveAndPublish p m contextKey userId).1 contextKey = some ctx' ∧
          ctx'.stage = Stage.complete ∧ ctx'.kbaDraft = ctx.kbaDraft) ∧
    (∀ (g : GenOracle) (m : Contexts) (contextKey : String)
      (ctx : ConversationContext) (t : JiraTicket) (e : String),
      ctxGet m contextKey = some ctx → ctx.jiraTicket = some t →
      g.content = Except.error e →
      ctxGet (generateKBA g m contextKey).1 contextKey = none) := by
  refine ⟨?_, ?_, ?_⟩
  · intro m contextKey userId e ctx hget hd ht
    obtain ⟨d, hds⟩ := Option.isSome_iff_exists.mp hd
    obtain ⟨t, hts⟩ := Option.isSome_iff_exists.mp ht
    unfold approveAndPublish
    simp [hget, hds, hts]
  · intro p m contextKey userId ctx hget hd ht
    obtain ⟨d, hds⟩ := Option.isSome_iff_exists.mp hd
    obtain ⟨t, hts⟩ := Option.isSome_iff_exists.mp ht
    unfold approveAndPublish
    cases p with
    | error e =>
      simp [hget, hds, hts, contentGenCount]
    | ok page =>
      simp only [hget, hds, hts]
      refine ⟨by simp, by simp [contentGenCount], ?_⟩
      intro page' hp
      exact ⟨_, ctxGet_ctxSet_self _ _ _, rfl, rfl⟩
  · intro g m contextKey ctx t e hget ht he
    exact (generateKBA_error g m contextKey ctx t e hget ht he).1

/-- Witness for C5: a review-stage context with a draft survives a failed publish
unchanged. -/
theorem approve_failure_retains_context_witness :
    (approveAndPublish (Except.error "503")
      [("C-T", ConversationContext.mk "T" "C" "U" (some cexTicket)
        (some (KBADraft.mk cexTicket cexContent [] none)) Stage.review ["Q1"]
        [("answer_1", "a1")])]
      "C-T" "U").1 =
      [("C-T", ConversationContext.mk "T" "C" "U" (some cexTicket)
        (some (KBADraft.mk cexTicket cexContent [] none)) Stage.review ["Q1"]
        [("answer_1", "a1")])] :=
  (approve_failure_retains_context.1
    [("C-T", ConversationContext.mk "T" "C" "U" (some cexTicket)
      (some (KBADraft.mk cexTicket cexContent [] none)) Stage.review ["Q1"]
      [("answer_1", "a1")])]
    "C-T" "U" "503"
    (ConversationContext.mk "T" "C" "U" (some cexTicket)
      (some (KBADraft.mk cexTicket cexContent [] none)) Stage.review ["Q1"]
      [("answer_1", "a1")])
    (by decide) rfl rfl).1

/-- Claim C6: start fails closed.  On parse failure a user-visible error is posted
and the map is untouched (no context created).  If the ticket fetch, the
clarifying-question call, or — on the zero-question shortcut — the content call
fails, the failure is reported and no context remains stored for the thread key. -/
theorem startWorkflow_fails_closed :
    (∀ (o : StartOracle) (m : Contexts) (channel threadTs userId jiraUrl : String),
      extractTicketKey jiraUrl = none →
      startWorkflow o m channel threadTs userId jiraUrl =
        (m, [Event.msg channel threadTs Msg.analyzingTicket,
             Event.msg channel threadTs Msg.parseError])) ∧
    (∀ (o : StartOracle) (m : Contexts) (channel threadTs userId jiraUrl tk e : String),
      extractTicketKey jiraUrl = some tk → o.ticket = Except.error e →
      ctxGet (startWorkflow o m channel threadTs userId jiraUrl).1
        (channel ++ "-" ++ threadTs) = none ∧
      Event.msg channel threadTs (Msg.startError e) ∈
        (startWorkflow o m channel threadTs userId jiraUrl).2) ∧
    (∀ (o : StartOracle) (m : Contexts) (channel threadTs userId jiraUrl tk e : String)
      (ticket : JiraTicket),
      extractTicketKey jiraUrl = some tk → o.ticket = Except.ok ticket →
      o.questions = Except.error e →
      ctxGet (startWorkflow o m channel threadTs userId jiraUrl).1
        (channel ++ "-" ++ threadTs) = none ∧
      Event.msg channel threadTs (Msg.startError e) ∈
        (startWorkflow o m channel threadTs userId jiraUrl).2) ∧
    (∀ (o : StartOracle) (m : Contexts) (channel threadTs userId jiraUrl tk e : String)
      (ticket : JiraTicket),
      extractTicketKey jiraUrl = some tk → o.ticket = Except.ok ticket →
      o.questions = Except.ok [] → o.gen.content = Except.error e →
      ctxGet (startWorkflow o m channel threadTs userId jiraUrl).1
        (channel ++ "-" ++ threadTs) = none) := by
  refine ⟨?_, ?_, ?_, ?_⟩
  · intro o m channel threadTs userId jiraUrl hparse
    unfold startWorkflow
    simp [hparse]
  · intro o m channel threadTs userId jiraUrl tk e hparse hticket
    unfold startWorkflow
    simp [hparse, hticket]
  · intro o m channel threadTs userId jiraUrl tk e ticket hparse hticket hq
    unfold startWorkflow
    simp [hparse, hticket, hq]
  · intro o m channel threadTs userId jiraUrl tk e ticket hparse hticket hq hc
    unfold startWorkflow
    simp only [hparse, hticket, hq, List.length_nil, if_pos rfl]
    exact (generateKBA_error o.gen _ _ _ ticket e (ctxGet_ctxSet_self _ _ _) rfl hc).1

/-- Witness for C6: an unparseable reference leaves the map untouched, and a failing
fetch on a parseable one leaves no context stored. -/
theorem startWorkflow_fails_closed_witness :
    startWorkflow cexStart [] "C" "T" "U" "no ticket here" =
      ([], [Event.msg "C" "T" Msg.analyzingTicket, Event.msg "C" "T" Msg.parseError]) ∧
    ctxGet (startWorkflow
        (StartOracle.mk (Except.error "404") (Except.ok []) cexGen)
        [] "C" "T" "U" "TECH-9").1 "C-T" = none :=
  ⟨startWorkflow_fails_closed.1 cexStart [] "C" "T" "U" "no ticket here" (by decide),
   (startWorkflow_fails_closed.2.1
     (StartOracle.mk (Except.error "404") (Except.ok []) cexGen)
     [] "C" "T" "U" "TECH-9" "TECH-9" "404" (by decide) rfl).1⟩

theorem no_waiting_renderLoop (render : Nat → ImageOs → RenderOutcome) (n : Nat)
    (p : String) (oss : List ImageOs) :
    ∀ e ∈ (renderLoop render n p oss).2.1,
      isQuestionListMsg e = false ∧ isAnswersRemainingMsg e = false := by
  induction oss with
  | nil => intro e he; cases he
  | cons os rest ih =>
    intro e he
    cases h : render n os with
    | fail msg =>
      simp only [renderLoop, h, List.mem_singleton] at he
      subst he
      exact ⟨rfl, rfl⟩
    | noUrl =>
      simp only [renderLoop, h, List.mem_cons] at he
      rcases he with rfl | he'
      · exact ⟨rfl, rfl⟩
      · exact ih e he'
    | url u =>
      simp only [renderLoop, h, List.mem_cons] at he
      rcases he with rfl | he'
      · exact ⟨rfl, rfl⟩
      · exact ih e he'

theorem no_waiting_stepImages (render : Nat → ImageOs → RenderOutcome)
    (step : KBAStep) :
    ∀ e ∈ (stepImages render step).2,
      isQuestionListMsg e = false ∧ isAnswersRemainingMsg e = false := by
  intro e he
  unfold stepImages at he
  cases hp : step.imagePrompt with
  | none => rw [hp] at he; cases step.osType <;> cases he
  | some p =>
    cases ht : step.osType with
    | none => rw [hp, ht] at he; cases he
    | some t =>
      rw [hp, ht] at he
      by_cases hpe : p = ""
      · simp [hpe] at he
      · simp only [if_neg hpe] at he
        by_cases hfail : (renderLoop render step.stepNumber p (osList t)).2.2
        · rw [if_pos hfail] at he
          exact no_waiting_renderLoop render step.stepNumber p (osList t) e he
        · rw [if_neg hfail] at he
          rcases List.mem_append.mp he with he' | he'
          · exact no_waiting_renderLoop render step.stepNumber p (osList t) e he'
          · simp only [List.mem_singleton] at he'
            subst he'
            exact ⟨rfl, rfl⟩

theorem no_waiting_generateImagesSteps (render : Nat → ImageOs → RenderOutcome)
    (steps : List KBAStep) :
    ∀ e ∈ (generateImagesSteps render steps).2,
      isQuestionListMsg e = false ∧ isAnswersRemainingMsg e = false := by
  induction steps with
  | nil => intro e he; cases he
  | cons step rest ih =>
    intro e he
    simp only [generateImagesSteps] at he
    rcases List.mem_append.mp he with he' | he'
    · exact no_waiting_stepImages render step e he'
    · exact ih e he'

theorem no_waiting_showPreview (m : Contexts) (contextKey : String) :
    ∀ e ∈ showPreview m contextKey,
      isQuestionListMsg e = false ∧ isAnswersRemainingMsg e = false := by
  intro e he
  unfold showPreview at he
  split at he
  · cases he
  · split at he
    · cases he
    · rcases List.mem_cons.mp he with rfl | he'
      · exact ⟨rfl, rfl⟩
      · rcases List.mem_append.mp he' with he'' | he''
        · obtain ⟨img, -, rfl⟩ := List.mem_map.mp he''
          exact ⟨rfl, rfl⟩
        · simp only [List.mem_singleton] at he''
          subst he''
          exact ⟨rfl, rfl⟩

theorem no_waiting_generateKBA (g : GenOracle) (m : Contexts) (contextKey : String) :
    ∀ e ∈ (generateKBA g m contextKey).2,
      isQuestionListMsg e = false ∧ isAnswersRemainingMsg e = false := by
  intro e he
  unfold generateKBA at he
  split at he
  · cases he
  · split at he
    · cases he
    · split at he
      case _ e' heq =>
        simp only [List.mem_append, List.mem_cons, List.mem_singleton] at he
        rcases he with (rfl | rfl | h) | (rfl | h)
        · exact ⟨rfl, rfl⟩
        · exact ⟨rfl, rfl⟩
        · cases h
        · exact ⟨rfl, rfl⟩
        · cases h
      case _ content heq =>
        simp only [List.append_assoc, List.mem_append, List.mem_cons,
          List.mem_singleton] at he
        rcases he with (rfl | rfl | h0) | hArt | hImg | hPrev
        · exact ⟨rfl, rfl⟩
        · exact ⟨rfl, rfl⟩
        · cases h0
        · by_cases h0 : 0 < (content.steps.filter truthyPrompt).length
          · rw [if_pos h0] at hArt
            simp only [List.mem_singleton] at hArt
            subst hArt
            exact ⟨rfl, rfl⟩
          · rw [if_neg h0] at hArt
            cases hArt
        · by_cases h0 : 0 < (content.steps.filter truthyPrompt).length
          · rw [if_pos h0] at hImg
            exact no_waiting_generateImagesSteps g.render content.steps e hImg
          · rw [if_neg h0] at hImg
            cases hImg
        · exact no_waiting_showPreview _ _ e hPrev

/-- Claim C8: when the question-generation step returns an empty list during start,
the workflow proceeds straight to content generation: the context does not rest in
the asking-questions stage (on a successful content call it is found in review), the
content call happens exactly once, and no question-list or remaining-answer
("waiting for answers") message is ever posted. -/
theorem zero_questions_skips_to_generation (o : StartOracle) (m : Contexts)
    (channel threadTs userId jiraUrl tk : String) (ticket : JiraTicket)
    (content : KBAContent)
    (hparse : extractTicketKey jiraUrl = some tk)
    (hticket : o.ticket = Except.ok ticket)
    (hq : o.questions = Except.ok [])
    (hc : o.gen.content = Except.ok content) :
    (∃ ctx', ctxGet (startWorkflow o m channel threadTs userId jiraUrl).1
        (channel ++ "-" ++ threadTs) = some ctx' ∧
      ctx'.stage = Stage.review) ∧
    contentGenCount (startWorkflow o m channel threadTs userId jiraUrl).2 = 1 ∧
    ∀ e ∈ (startWorkflow o m channel threadTs userId jiraUrl).2,
      isQuestionListMsg e = false ∧ isAnswersRemainingMsg e = false := by
  have hok := generateKBA_ok o.gen
    (ctxSet (ctxSet m (channel ++ "-" ++ threadTs)
      { threadTs := threadTs, channel := channel, userId := userId,
        jiraTicket := some ticket, kbaDraft := none,
        stage := Stage.analyzing, questionsAsked := [], userAnswers := [] })
      (channel ++ "-" ++ threadTs)
      { threadTs := threadTs, channel := channel, userId := userId,
        jiraTicket := some ticket, kbaDraft := none,
        stage := Stage.asking_questions, questionsAsked := [], userAnswers := [] })
    (channel ++ "-" ++ threadTs) _ ticket content (ctxGet_ctxSet_self _ _ _) rfl hc
  obtain ⟨⟨ctx', hget', hstage', -, -, -, -⟩, hcount⟩ := hok
  have hsw : startWorkflow o m channel threadTs userId jiraUrl =
      ((generateKBA o.gen (ctxSet (ctxSet m (channel ++ "-" ++ threadTs)
          { threadTs := threadTs, channel := channel, userId := userId,
            jiraTicket := some ticket, kbaDraft := none,
            stage := Stage.analyzing, questionsAsked := [], userAnswers := [] })
          (channel ++ "-" ++ threadTs)
          { threadTs := threadTs, channel := channel, userId := userId,
            jiraTicket := some ticket, kbaDraft := none,
            stage := Stage.asking_questions, questionsAsked := [], userAnswers := [] })
          (channel ++ "-" ++ threadTs)).1,
       [Event.msg channel threadTs Msg.analyzingTicket,
        Event.msg channel threadTs
          (Msg.foundTicket ticket.key ticket.summary ticket.status ticket.priority)] ++
        (generateKBA o.gen (ctxSet (ctxSet m (channel ++ "-" ++ threadTs)
          { threadTs := threadTs, channel := channel, userId := userId,
            jiraTicket := some ticket, kbaDraft := none,
            stage := Stage.analyzing, questionsAsked := [], userAnswers := [] })
          (channel ++ "-" ++ threadTs)
          { threadTs := threadTs, channel := channel, userId := userId,
            jiraTicket := some ticket, kbaDraft := none,
            stage := Stage.asking_questions, questionsAsked := [], userAnswers := [] })
          (channel ++ "-" ++ threadTs)).2) := by
    unfold startWorkflow
    simp only [hparse, hticket, hq, List.length_nil, if_pos rfl, if_true]
  refine ⟨⟨ctx', ?_, hstage'⟩, ?_, ?_⟩
  · rw [hsw]
    exact hget'
  · rw [hsw]
    simp [contentGenCount_append, contentGenCount, hcount]
  · rw [hsw]
    intro e he
    rcases List.mem_append.mp he with he' | he'
    · rcases List.mem_cons.mp he' with rfl | he''
      · exact ⟨rfl, rfl⟩
      · rcases List.mem_cons.mp he'' with rfl | he'''
        · exact ⟨rfl, rfl⟩
        · cases he'''
    · exact no_waiting_generateKBA _ _ _ e he'

/-- Witness for C8 at a concrete zero-question start. -/
theorem zero_questions_skips_to_generation_witness :
    contentGenCount (startWorkflow (StartOracle.mk (Except.ok cexTicket)
      (Except.ok []) cexGen) [] "C" "T" "U" "TECH-1").2 = 1 :=
  (zero_questions_skips_to_generation
    (StartOracle.mk (Except.ok cexTicket) (Except.ok []) cexGen)
    [] "C" "T" "U" "TECH-1" "TECH-1" cexTicket cexContent
    (by decide) rfl rfl rfl).2.1

/-! ## The reachable-state bound on answers (C2) -/

theorem CtxInv_mono {r r' : Nat} (h : r ≤ r') {ctx : ConversationContext}
    (hc : CtxInv r ctx) : CtxInv r' ctx := by
  obtain ⟨h1, h2, h3⟩ := hc
  exact ⟨h1, fun hs => by have := h2 hs; omega, fun hs => by have := h3 hs; omega⟩

theorem ctxGet_generateKBA_other (g : GenOracle) (m : Contexts) (contextKey k' : String)
    (h : k' ≠ contextKey) :
    ctxGet (generateKBA g m contextKey).1 k' = ctxGet m k' := by
  unfold generateKBA
  split
  · rfl
  · split
    · rfl
    · split
      · simp [ctxGet_ctxDel_ne _ _ _ h, ctxGet_ctxSet_ne _ _ _ _ h]
      · simp [ctxGet_ctxSet_ne _ _ _ _ h]

theorem generateKBA_self_cases (g : GenOracle) (m : Contexts) (contextKey : String) :
    ctxGet (generateKBA g m contextKey).1 contextKey = none ∨
    (∃ ctx, ctxGet m contextKey = some ctx ∧ ctx.jiraTicket = none ∧
      (generateKBA g m contextKey).1 = m) ∨
    (∃ ctx ctx', ctxGet m contextKey = some ctx ∧
      ctxGet (generateKBA g m contextKey).1 contextKey = some ctx' ∧
      ctx'.stage = Stage.review ∧ ctx'.userAnswers = ctx.userAnswers ∧
      ctx'.questionsAsked = ctx.questionsAsked ∧ ctx'.jiraTicket = ctx.jiraTicket) := by
  cases hget : ctxGet m contextKey with
  | none =>
    left
    unfold generateKBA
    simp [hget]
  | some ctx =>
    cases ht : ctx.jiraTicket with
    | none =>
      right; left
      refine ⟨ctx, rfl, ht, ?_⟩
      unfold generateKBA
      simp [hget, ht]
    | some t =>
      cases hc : g.content with
      | error e =>
        left
        exact (generateKBA_error g m contextKey ctx t e hget ht hc).1
      | ok content =>
        right; right
        obtain ⟨⟨ctx', h1, h2, h3, h4, h5, -⟩, -⟩ :=
          generateKBA_ok g m contextKey ctx t content hget ht hc
        exact ⟨ctx, ctx', rfl, h1, h2, h3, h4, h5⟩

theorem applyOp_inv (m : Contexts) (rc : String → Nat) (op : Op)
    (h : ∀ k ctx, ctxGet m k = some ctx → CtxInv (rc k) ctx) :
    ∀ k ctx, ctxGet (applyOp m op).1 k = some ctx →
      CtxInv (rc k + opRc op k) ctx := by
  cases op with
  | start channel threadTs userId jiraUrl o =>
    intro k ctx hk
    simp only [opRc, Nat.add_zero]
    simp only [applyOp] at hk
    unfold startWorkflow at hk
    split at hk
    · exact h k ctx hk
    · split at hk
      · by_cases hkey : k = channel ++ "-" ++ threadTs
        · subst hkey
          rw [ctxGet_ctxDel_self] at hk
          cases hk
        · rw [ctxGet_ctxDel_ne _ _ _ hkey] at hk
          exact h k ctx hk
      · rename_i ticket heqticket
        split at hk
        · by_cases hkey : k = channel ++ "-" ++ threadTs
          · subst hkey
            rw [ctxGet_ctxDel_self] at hk
            cases hk
          · rw [ctxGet_ctxDel_ne _ _ _ hkey,
              ctxGet_ctxSet_ne _ _ _ _ hkey] at hk
            exact h k ctx hk
        · rename_i questions heqq
          split at hk
          · rename_i hlen
            by_cases hkey : k = channel ++ "-" ++ threadTs
            · subst hkey
              rcases generateKBA_self_cases o.gen
                  (ctxSet (ctxSet m (channel ++ "-" ++ threadTs)
                    { threadTs := threadTs, channel := channel, userId := userId,
                      jiraTicket := some ticket, kbaDraft := none,
                      stage := Stage.analyzing, questionsAsked := [], userAnswers := [] })
                    (channel ++ "-" ++ threadTs)
                    { threadTs := threadTs, channel := channel, userId := userId,
                      jiraTicket := some ticket, kbaDraft := none,
                      stage := Stage.asking_questions, questionsAsked := questions,
                      userAnswers := [] })
                  (channel ++ "-" ++ threadTs)
                with hnone | ⟨c, hc1, hc2, -⟩ | ⟨c, c', hc1, hc2, hc3, hc4, hc5, hc6⟩
              · rw [hnone] at hk
                cases hk
              · rw [ctxGet_ctxSet_self] at hc1
                obtain rfl : _ = c := Option.some_inj.mp hc1
                cases hc2
              · rw [hk] at hc2
                obtain rfl : ctx = c' := Option.some_inj.mp hc2
                rw [ctxGet_ctxSet_self] at hc1
                obtain rfl : _ = c := Option.some_inj.mp hc1
                refine ⟨?_, ?_, ?_⟩
                · rw [hc6]
                  rfl
                · intro hs
                  rw [hc3] at hs
                  cases hs
                · intro _
                  rw [hc4]
                  simp
            · rw [ctxGet_generateKBA_other _ _ _ _ hkey,
                ctxGet_ctxSet_ne _ _ _ _ hkey,
                ctxGet_ctxSet_ne _ _ _ _ hkey] at hk
              exact h k ctx hk
          · rename_i hlen
            by_cases hkey : k = channel ++ "-" ++ threadTs
            · subst hkey
              rw [ctxGet_ctxSet_self] at hk
              obtain rfl : _ = ctx := Option.some_inj.mp hk
              refine ⟨rfl, ?_, ?_⟩
              · intro _
                simp only [List.length_nil]
                omega
              · intro hne
                exact absurd rfl hne
            · rw [ctxGet_ctxSet_ne _ _ _ _ hkey,
                ctxGet_ctxSet_ne _ _ _ _ hkey] at hk
              exact h k ctx hk
  | answer channel threadTs userId text g =>
    intro k ctx hk
    simp only [opRc, Nat.add_zero]
    simp only [applyOp] at hk
    cases hget : ctxGet m (channel ++ "-" ++ threadTs) with
    | none =>
      rw [handleAnswer_no_context g m channel threadTs userId text hget] at hk
      exact h k ctx hk
    | some ctx0 =>
      by_cases hs : ctx0.stage = Stage.asking_questions
      · obtain ⟨hts, hask, -⟩ := h _ ctx0 hget
        by_cases htrig : ctx0.questionsAsked.length ≤ ctx0.userAnswers.length + 1
        · rw [handleAnswer_trigger g m channel threadTs userId text ctx0 hget hs htrig] at hk
          by_cases hkey : k = channel ++ "-" ++ threadTs
          · subst hkey
            rcases generateKBA_self_cases g
                (ctxSet m (channel ++ "-" ++ threadTs)
                  { ctx0 with userAnswers := ctx0.userAnswers ++
                      [("answer_" ++ toString (ctx0.userAnswers.length + 1), text)] })
                (channel ++ "-" ++ threadTs)
              with hnone | ⟨c, hc1, hc2, -⟩ | ⟨c, c', hc1, hc2, hc3, hc4, hc5, hc6⟩
            · rw [hnone] at hk
              cases hk
            · rw [ctxGet_ctxSet_self] at hc1
              obtain rfl : _ = c := Option.some_inj.mp hc1
              simp only [] at hc2
              rw [hc2] at hts
              cases hts
            · rw [hk] at hc2
              obtain rfl : ctx = c' := Option.some_inj.mp hc2
              rw [ctxGet_ctxSet_self] at hc1
              obtain rfl : _ = c := Option.some_inj.mp hc1
              refine ⟨?_, ?_, ?_⟩
              · rw [hc6]
                exact hts
              · intro hstage
                rw [hc3] at hstage
                cases hstage
              · intro _
                rw [hc4, hc5]
                have := hask hs
                simp
                omega
          · rw [ctxGet_generateKBA_other _ _ _ _ hkey,
              ctxGet_ctxSet_ne _ _ _ _ hkey] at hk
            exact h k ctx hk
        · rw [handleAnswer_continue g m channel threadTs userId text ctx0 hget hs
            (by omega)] at hk
          by_cases hkey : k = channel ++ "-" ++ threadTs
          · subst hkey
            rw [ctxGet_ctxSet_self] at hk
            obtain rfl : _ = ctx := Option.some_inj.mp hk
            refine ⟨hts, ?_, ?_⟩
            · intro _
              simp only [List.length_append, List.length_cons, List.length_nil]
              have := hask hs
              omega
            · intro hne
              exact absurd hs hne
          · rw [ctxGet_ctxSet_ne _ _ _ _ hkey] at hk
            exact h k ctx hk
      · rw [handleAnswer_wrong_stage g m channel threadTs userId text ctx0 hget hs] at hk
        exact h k ctx hk
  | approve contextKey userId publish =>
    intro k ctx hk
    simp only [opRc, Nat.add_zero]
    simp only [applyOp] at hk
    unfold approveAndPublish at hk
    split at hk
    · exact h k ctx hk
    · rename_i ctx0 hget
      split at hk
      · exact h k ctx hk
      · split at hk
        · exact h k ctx hk
        · split at hk
          · exact h k ctx hk
          · by_cases hkey : k = contextKey
            · subst hkey
              rw [ctxGet_ctxSet_self] at hk
              obtain rfl : _ = ctx := Option.some_inj.mp hk
              obtain ⟨hts, hask, hother⟩ := h _ ctx0 hget
              refine ⟨hts, ?_, ?_⟩
              · intro hstage
                cases hstage
              · intro _
                by_cases hs0 : ctx0.stage = Stage.asking_questions
                · have := hask hs0
                  simp
                  omega
                · have := hother hs0
                  simp
                  omega
            · rw [ctxGet_ctxSet_ne _ _ _ _ hkey] at hk
              exact h k ctx hk
  | reqChanges contextKey =>
    intro k ctx hk
    simp only [applyOp] at hk
    unfold requestChanges at hk
    split at hk
    · exact CtxInv_mono (Nat.le_add_right _ _) (h k ctx hk)
    · rename_i ctx0 hget
      by_cases hkey : k = contextKey
      · subst hkey
        rw [ctxGet_ctxSet_self] at hk
        obtain rfl : _ = ctx := Option.some_inj.mp hk
        obtain ⟨hts, hask, hother⟩ := h _ ctx0 hget
        have hrc : opRc (Op.reqChanges k) k = 1 := by simp [opRc]
        rw [hrc]
        refine ⟨hts, ?_, ?_⟩
        · intro _
          by_cases hs0 : ctx0.stage = Stage.asking_questions
          · have := hask hs0
            simp
            omega
          · have := hother hs0
            simp
            omega
        · intro hne
          exact absurd rfl hne
      · rw [ctxGet_ctxSet_ne _ _ _ _ hkey] at hk
        have hrc : opRc (Op.reqChanges contextKey) k = 0 := by
          simp [opRc, Ne.symm hkey]
        rw [hrc, Nat.add_zero]
        exact h k ctx hk
  | cancel contextKey =>
    intro k ctx hk
    simp only [opRc, Nat.add_zero]
    simp only [applyOp] at hk
    unfold cancelKBA at hk
    split at hk
    · exact h k ctx hk
    · by_cases hkey : k = contextKey
      · subst hkey
        rw [ctxGet_ctxDel_self] at hk
        cases hk
      · rw [ctxGet_ctxDel_ne _ _ _ hkey] at hk
        exact h k ctx hk

theorem rcCount_cons (contextKey : String) (op : Op) (ops : List Op) :
    rcCount contextKey (op :: ops) = opRc op contextKey + rcCount contextKey ops := by
  cases op <;> simp [rcCount, opRc]

theorem runOps_inv : ∀ (ops : List Op) (m : Contexts) (rc : String → Nat),
    (∀ k ctx, ctxGet m k = some ctx → CtxInv (rc k) ctx) →
    ∀ k ctx, ctxGet (runOps m ops) k = some ctx →
      CtxInv (rc k + rcCount k ops) ctx := by
  intro ops
  induction ops with
  | nil =>
    intro m rc h k ctx hk
    simpa [rcCount] using h k ctx hk
  | cons op ops ih =>
    intro m rc h k ctx hk
    have hstep := applyOp_inv m rc op h
    have hrec := ih (applyOp m op).1 (fun k => rc k + opRc op k) hstep k ctx hk
    rw [rcCount_cons, ← Nat.add_assoc]
    exact hrec

/-- Claim C2 (amended): in every context map reachable by a run of workflow
operations from the empty map, a context found in the asking-questions stage
satisfies `answers < questions + 1 + rc`, where `rc` counts the request-changes
operations of the run for that thread key.  In particular the claimed invariant
`answers ≤ questions` holds for every context whose thread has pressed
request-changes at most once; it can fail from the second request-changes cycle on
(see the counterexample), because the request-changes transition never clears the
collected answers. -/
theorem reachable_answers_bound (ops : List Op) (k : String)
    (ctx : ConversationContext)
    (h : ctxGet (runOps [] ops) k = some ctx)
    (hstage : ctx.stage = Stage.asking_questions) :
    ctx.userAnswers.length + 1 ≤ ctx.questionsAsked.length + rcCount k ops := by
  have hinv := runOps_inv ops [] (fun _ => 0)
    (fun k c hc => by cases hc) k ctx h
  have hb := hinv.2.1 hstage
  simpa using hb

/-- Counterexample to C2 as stated: after start (one question), one answer, request
changes, the feedback answer, and a second request changes, the stored context is in
the asking-questions stage with two collected answers against one asked question —
the answer set exceeds the question list. -/
theorem answers_exceed_questions_after_second_request_changes :
    (ctxGet (runOps [] cexOps) "C-T").map
      (fun c => (c.stage, c.userAnswers.length, c.questionsAsked.length)) =
      some (Stage.asking_questions, 2, 1) := by
  decide

/-- Witness for the amended C2 bound on the same concrete run (`2 + 1 ≤ 1 + 2`). -/
theorem reachable_answers_bound_witness :
    (2 : Nat) + 1 ≤ 1 + rcCount "C-T" cexOps := by
  have h := reachable_answers_bound cexOps "C-T"
    (ConversationContext.mk "T" "C" "U" (some cexTicket)
      (some (KBADraft.mk cexTicket cexContent [] none))
      Stage.asking_questions ["Q1"]
      [("answer_1", "a1"), ("answer_2", "feedback")])
    (by decide) rfl
  simpa using h

/-! ## Attachment filenames (C9) -/

theorem foldl_append_hoist (l : List String) :
    ∀ a : String, l.foldl (fun r s => r ++ s) a = a ++ l.foldl (fun r s => r ++ s) "" := by
  induction l with
  | nil => intro a; simp
  | cons x l ih =>
    intro a
    simp only [List.foldl_cons]
    rw [ih (a ++ x), ih ("" ++ x), String.empty_append, String.append_assoc]

theorem join_cons (a : String) (l : List String) :
    String.join (a :: l) = a ++ String.join l := by
  simp only [String.join, List.foldl_cons]
  rw [foldl_append_hoist, String.empty_append]

theorem substringOf_trans {x y z : String} (h1 : SubstringOf x y)
    (h2 : SubstringOf y z) : SubstringOf x z := by
  obtain ⟨p1, s1, rfl⟩ := h1
  obtain ⟨p2, s2, rfl⟩ := h2
  refine ⟨p2 ++ p1, s1 ++ s2, ?_⟩
  simp [String.append_assoc]

theorem substringOf_join {x : String} {l : List String} (h : x ∈ l) :
    SubstringOf x (String.join l) := by
  induction l with
  | nil => cases h
  | cons a l ih =>
    rw [join_cons]
    rcases List.mem_cons.mp h with rfl | h'
    · exact ⟨"", String.join l, by rw [String.empty_append]⟩
    · obtain ⟨p, s, heq⟩ := ih h'
      exact ⟨a ++ p, s, by rw [heq]; simp [String.append_assoc]⟩

theorem substringOf_extend {x y : String} (a b : String) (h : SubstringOf x y) :
    SubstringOf x (a ++ y ++ b) :=
  substringOf_trans h ⟨a, b, rfl⟩

set_option maxRecDepth 8192 in
/-- Claim C9: the attachment filename referenced in the produced page-body markup
and the filename the binary asset is uploaded under coincide and follow the scheme
`step-<stepNumber>-<platform>.png`.  Part one: every filename referenced by the page
body is among the upload filenames.  Part two: every upload filename follows the
scheme.  Part three: for every step and every image with the step's number, the
marked-up attachment reference `ri:filename="step-<n>-<os>.png"` — with exactly the
upload filename of that image inside the quotes — occurs verbatim in the generated
page body. -/
theorem attachment_filename_scheme :
    (∀ (content : KBAContent) (images : List GeneratedImage),
      ∀ f ∈ referencedFilenames content images, f ∈ uploadFilenames images) ∧
    (∀ (images : List GeneratedImage), ∀ f ∈ uploadFilenames images,
      ∃ (n : Nat) (os : ImageOs),
        f = "step-" ++ toString n ++ "-" ++ osTag os ++ ".png") ∧
    (∀ (jiraHost jiraKey : String) (content : KBAContent)
      (images : List GeneratedImage) (step : KBAStep) (image : GeneratedImage),
      step ∈ content.steps → image ∈ images → image.stepNumber = step.stepNumber →
      SubstringOf
        ("ri:filename=\"" ++
          ("step-" ++ toString image.stepNumber ++ "-" ++ osTag image.osType ++ ".png")
          ++ "\"")
        (generateConfluenceHTML jiraHost content images jiraKey) ∧
      ("step-" ++ toString image.stepNumber ++ "-" ++ osTag image.osType ++ ".png") ∈
        uploadFilenames images) := by
  refine ⟨?_, ?_, ?_⟩
  · intro content images f hf
    unfold referencedFilenames at hf
    obtain ⟨l, hl, hfl⟩ := List.mem_flatten.mp hf
    obtain ⟨step, -, rfl⟩ := List.mem_map.mp hl
    obtain ⟨image, himg, rfl⟩ := List.mem_map.mp hfl
    obtain ⟨himgs, heq⟩ := List.mem_filter.mp himg
    have heqn : image.stepNumber = step.stepNumber := of_decide_eq_true heq
    unfold uploadFilenames
    exact List.mem_map.mpr ⟨image, himgs, by rw [heqn]⟩
  · intro images f hf
    obtain ⟨image, -, rfl⟩ := List.mem_map.mp hf
    exact ⟨image.stepNumber, image.osType, rfl⟩
  · intro jiraHost jiraKey content images step image hstep himg heqn
    constructor
    · have h1 : SubstringOf
          ("ri:filename=\"" ++
            ("step-" ++ toString image.stepNumber ++ "-" ++ osTag image.osType ++ ".png")
            ++ "\"")
          (stepImageHTML step image) := by
        refine ⟨"<p><strong>" ++ osLabel image.osType ++
          ":</strong></p>\n<p><ac:image><ri:attachment ",
          " /></ac:image></p>\n", ?_⟩
        unfold stepImageHTML
        rw [heqn]
        apply String.ext
        simp only [String.data_append, List.append_assoc, List.cons_append,
          List.nil_append]
      have h2 : SubstringOf (stepImageHTML step image) (stepHTML images step) := by
        have hmem : stepImageHTML step image ∈
            (images.filter (fun img => decide (img.stepNumber = step.stepNumber))).map
              (stepImageHTML step) :=
          List.mem_map.mpr ⟨image,
            List.mem_filter.mpr ⟨himg, decide_eq_true heqn⟩, rfl⟩
        obtain ⟨p, s, heq⟩ := substringOf_join hmem
        refine ⟨"<h3>Step " ++ toString step.stepNumber ++ "</h3>\n" ++
          ("<p>" ++ escapeHTML step.description ++ "</p>\n") ++
          (match step.codeSnippet with
           | some code =>
             if code = "" then ""
             else
               "<ac:structured-macro ac:name=\"code\"><ac:plain-text-body><![CDATA[" ++
               code ++ "]]></ac:plain-text-body></ac:structured-macro>\n"
           | none => "") ++ p, s, ?_⟩
        unfold stepHTML
        rw [heq]
        apply String.ext
        simp only [String.data_append, List.append_assoc, List.cons_append,
          List.nil_append]
      have h3 : SubstringOf (stepHTML images step)
          (generateConfluenceHTML jiraHost content images jiraKey) := by
        obtain ⟨p, s, heq⟩ := substringOf_join
          (List.mem_map.mpr ⟨step, hstep, rfl⟩ :
            stepHTML images step ∈ content.steps.map (stepHTML images))
        refine ⟨("<p><strong>Related Jira Ticket:</strong> <a href=\"" ++ jiraHost ++
          "/browse/" ++ jiraKey ++ "\">" ++ jiraKey ++ "</a></p>\n" ++
          ("<h2>Problem</h2>\n<p>" ++ escapeHTML content.problem ++ "</p>\n") ++
          ("<h2>Solution</h2>\n<p>" ++ escapeHTML content.solution ++ "</p>\n") ++
          "<h2>Step-by-Step Instructions</h2>\n") ++ p,
          s ++ ((match content.additionalNotes with
           | some notes =>
             if notes = "" then ""
             else "<h2>Additional Notes</h2>\n<p>" ++ escapeHTML notes ++ "</p>\n"
           | none => "") ++
          ("<p><strong>Tags:</strong> " ++ String.intercalate ", " content.tags ++
            "</p>\n")), ?_⟩
        unfold generateConfluenceHTML
        rw [heq]
        apply String.ext
        simp only [String.data_append, List.append_assoc, List.cons_append,
          List.nil_append]
      exact substringOf_trans (substringOf_trans h1 h2) h3
    · exact List.mem_map.mpr ⟨image, himg, rfl⟩

/-- Witness for C9 on a one-step, one-image bundle. -/
theorem attachment_filename_scheme_witness :
    SubstringOf "ri:filename=\"step-1-mac.png\""
      (generateConfluenceHTML "https://conf" 
        (KBAContent.mk "T" "P" "S" [KBAStep.mk 1 "d" (some "pr") (some OsType.both) none]
          none [])
        [GeneratedImage.mk 1 "https://img" ImageOs.mac "pr"] "TECH-1") ∧
    "step-1-mac.png" ∈
      uploadFilenames [GeneratedImage.mk 1 "https://img" ImageOs.mac "pr"] :=
  (attachment_filename_scheme.2.2 "https://conf" "TECH-1"
    (KBAContent.mk "T" "P" "S" [KBAStep.mk 1 "d" (some "pr") (some OsType.both) none]
      none [])
    [GeneratedImage.mk 1 "https://img" ImageOs.mac "pr"]
    (KBAStep.mk 1 "d" (some "pr") (some OsType.both) none)
    (GeneratedImage.mk 1 "https://img" ImageOs.mac "pr")
    (by decide) (by decide) rfl)
